import Mathlib

/-!
# Mixif interactive brochure: a verification development of `script.js`

The brochure script is embedded shallowly:

* A JavaScript number is the rational it denotes.  The geometry classifier
  works on exact values (the rounding of its products and quotients is not
  modelled); where the script reads a number from text, `parseFloat` rounds
  to the nearest IEEE double and the formatting built-ins work on that double.
  Every division the script performs has a non-zero denominator
  (`getSvgSize` never returns a zero side, `box.width || 1`).
* A DOM element is a record of the attributes the script reads; a call that
  can throw (`getBBox`, `getTotalLength`) is an `Option`, `none` standing for
  the exception (or the missing method).
* File-scope variables (`currentPageId`, `pageState`) and the parts of the
  document the script writes form an explicit `State`; every function that
  mutates them takes and returns that state.
* The animation engine is external.  Building a timeline is recorded in a
  log, a page transition is kept as a pending record whose callbacks run when
  the transition completes.
-/

namespace Mixif

/-! ## Configuration -/

/-- The constant `TOTAL_PAGES`. -/
def TOTAL_PAGES : Int := 29

/-- The table `SECTION_NAV`: label and target page. -/
def SECTION_NAV : List (String × Int) :=
  [("Introduction", 2), ("Indications", 4), ("Bioequivalence", 22), ("Dosing", 23),
   ("Reconstitution", 25), ("Syringe", 26), ("Why Mixif", 27), ("References", 29)]

/-! ## Vector content -/

/-- The result of `getBBox()`. -/
structure BBox where
  x : ℚ
  y : ℚ
  width : ℚ
  height : ℚ
deriving DecidableEq

/-- Element names the selectors of the script distinguish. -/
inductive Tag where
  | rect | circle | ellipse | line | polyline | polygon | path
  | text | tspan | image | g | other
deriving DecidableEq, Repr

/-- An element of a loaded page.  `getBBox = none` means the call throws;
`getTotalLength = none` means the method is missing or throws. -/
structure Element where
  tag : Tag
  id : String
  textContent : String
  getBBox : Option BBox
  getTotalLength : Option ℚ
deriving DecidableEq

/-- The root of a loaded page: `viewBox` is `viewBox.baseVal` as
(width, height) when the property exists, `elements` are the descendants in
document order. -/
structure Svg where
  viewBox : Option (ℚ × ℚ)
  elements : List Element
deriving DecidableEq

/-- The selector call `svg.querySelectorAll` for a list of element names. -/
def Svg.querySelectorAll (svg : Svg) (tags : List Tag) : List Element :=
  svg.elements.filter (fun el => decide (el.tag ∈ tags))

/-! ## Navigation state -/

/-- A `section.page` element: the `active` class and the inline properties
the script and the engine write. -/
structure PageSection where
  active : Bool
  opacity : Option Nat
  hidden : Bool
  xPercent : Int
deriving DecidableEq, Repr

/-- An entry of `pageState`; a timeline is known by the number of timelines
built before it. -/
structure PageRuntime where
  svgRoot : Svg
  timeline : Option Nat
deriving DecidableEq

/-- A `.nav-btn` button: `dataset.targetPage` and the `active` class. -/
structure NavButton where
  targetPage : Int
  active : Bool
deriving DecidableEq, Repr

/-- A slide-and-fade timeline created by `goToPage` that has not completed:
the captured `oldSection`, `targetSection` and `direction`. -/
structure Transition where
  oldPage : Int
  targetPage : Int
  direction : Int
deriving DecidableEq, Repr

/-- The mutable world of the script.  `gsap` is `hasGSAP()`, `sections` maps a
`data-page-id` to its section, `pageCounter` is the text of `#page-counter`
(`none` when the element is absent), `built` lists the page ids for which
`buildPageTimeline` constructed a timeline, oldest first, `restarted` lists
the timelines on which `restart()` was called, oldest first. -/
structure State where
  gsap : Bool
  currentPageId : Option Int
  sections : Int → Option PageSection
  pageCounter : Option String
  navButtons : List NavButton
  pageState : Int → Option PageRuntime
  built : List Int
  restarted : List Nat
  pending : List Transition

/-- Pointwise update of a finite map kept as a function. -/
def setAt {α : Type} (f : Int → Option α) (k : Int) (v : α) : Int → Option α :=
  fun i => if i = k then some v else f i

/-- Apply `g` to the section of page `k`, when there is one. -/
def modifySection (s : State) (k : Int) (g : PageSection → PageSection) : State :=
  match s.sections k with
  | some sec => { s with sections := setAt s.sections k (g sec) }
  | none => s

/-- JavaScript truthiness of `currentPageId`: `null` and `0` are falsy. -/
def truthyPage : Option Int → Bool
  | none => false
  | some n => decide (n ≠ 0)

/-- The function `updatePageCounter`. -/
def updatePageCounter (s : State) (pageId : Int) : State :=
  match s.pageCounter with
  | none => s
  | some _ => { s with pageCounter := some (toString pageId ++ " / " ++ toString TOTAL_PAGES) }

/-- The function `updateNavActiveByPage`. -/
def updateNavActiveByPage (s : State) (pageId : Int) : State :=
  { s with navButtons :=
      s.navButtons.map (fun b => { b with active := decide (b.targetPage = pageId) }) }

/-- The function `buildPageTimeline`, as far as the state is concerned: with
the engine a new timeline is constructed and logged. -/
def buildPageTimeline (s : State) (pageId : Int) (_svg : Svg) : State × Option Nat :=
  if !s.gsap then (s, none)
  else ({ s with built := s.built ++ [pageId] }, some s.built.length)

/-- The function `playPage`. -/
def playPage (s : State) (pageId : Int) : State :=
  if !s.gsap then s
  else
    match s.pageState pageId with
    | none => s
    | some st =>
      match st.timeline with
      | some t => { s with restarted := s.restarted ++ [t] }
      | none =>
        let r := buildPageTimeline s pageId st.svgRoot
        let s1 := { r.1 with pageState := setAt r.1.pageState pageId { st with timeline := r.2 } }
        match r.2 with
        | some t => { s1 with restarted := s1.restarted ++ [t] }
        | none => s1

/-- The function `onSvgLoaded`; `contentDocument` is `none` when the document
cannot be reached, `some none` when it has no `svg` root.  The click handlers
wired here live on the page content, not in the navigation state. -/
def onSvgLoaded (s : State) (pageId : Int) (contentDocument : Option (Option Svg)) : State :=
  match contentDocument with
  | none => s
  | some none => s
  | some (some svgRoot) =>
    let s1 := { s with pageState := setAt s.pageState pageId { svgRoot := svgRoot, timeline := none } }
    if s1.currentPageId = some pageId ∧ s1.gsap = true then playPage s1 pageId else s1

/-- The function `goToPage`.  `oldSection` is kept as the page id of the
section found; on the animated branch the timeline is recorded as pending,
the frames the engine renders before it completes are not modelled. -/
def goToPage (s : State) (pageId : Int) (instant : Bool) : State :=
  match s.sections pageId with
  | none => s
  | some _ =>
    let oldSection : Option Int :=
      match s.currentPageId with
      | some c => if truthyPage (some c) ∧ (s.sections c).isSome then some c else none
      | none => none
    let direction : Int :=
      match s.currentPageId with
      | some c => if !truthyPage (some c) then 1 else if pageId > c then 1 else -1
      | none => 1
    let s1 := { s with currentPageId := some pageId }
    let s2 := updatePageCounter s1 pageId
    let s3 := updateNavActiveByPage s2 pageId
    match oldSection with
    | none =>
      let s4 := modifySection s3 pageId (fun sec => { sec with active := true, opacity := some 1 })
      playPage s4 pageId
    | some old =>
      if !s3.gsap ∨ instant then
        let s4 := modifySection s3 old (fun sec => { sec with active := false, opacity := some 0 })
        let s5 := modifySection s4 pageId (fun sec => { sec with active := true, opacity := some 1 })
        playPage s5 pageId
      else
        { s3 with pending := s3.pending ++ [{ oldPage := old, targetPage := pageId, direction := direction }] }

/-- Completion of the oldest pending transition timeline: the first tween
ends (old section shifted and faded out), the second tween starts and ends
(`onStart` marks the target active, the target is faded in at rest),
`onComplete` unmarks the old section and `gsap.set` clears its inline
properties, then the trailing call plays the page. -/
def completeTransition (s : State) : State :=
  match s.pending with
  | [] => s
  | tr :: rest =>
    let s1 := { s with pending := rest }
    let s2 := modifySection s1 tr.oldPage
      (fun sec => { sec with xPercent := -18 * tr.direction, opacity := some 0, hidden := true })
    let s3 := modifySection s2 tr.targetPage (fun sec => { sec with active := true })
    let s4 := modifySection s3 tr.targetPage
      (fun sec => { sec with xPercent := 0, opacity := some 1, hidden := false })
    let s5 := modifySection s4 tr.oldPage (fun sec => { sec with active := false })
    let s6 := modifySection s5 tr.oldPage
      (fun sec => { sec with xPercent := 0, opacity := none, hidden := false })
    playPage s6 tr.targetPage

/-- What can happen to the navigation state. -/
inductive Event where
  | goTo (pageId : Int) (instant : Bool)
  | sidePrev
  | sideNext
  | svgNext (pageId : Int)
  | svgPrev (pageId : Int)
  | navButton (index : Nat)
  | home
  | deepLink (targetPage : Int)
  | transitionDone
  | svgLoaded (pageId : Int) (contentDocument : Option (Option Svg))
  | play (pageId : Int)

/-- The handlers: side controls of `setupSideNav`, the embedded graphics of
`wireNextPrevIcons`, the buttons of `buildNav`, the home graphic of
`wireHomeIcon`, the links of `attachTextNavigation`, and the engine and load
callbacks. -/
def step (s : State) : Event → State
  | .goTo pageId instant => goToPage s pageId instant
  | .sidePrev =>
    goToPage s (match s.currentPageId with
      | some c => if truthyPage (some c) then max 1 (c - 1) else 1
      | none => 1) false
  | .sideNext =>
    goToPage s (match s.currentPageId with
      | some c => if truthyPage (some c) then min TOTAL_PAGES (c + 1) else 2
      | none => 2) false
  | .svgNext pageId => goToPage s (min TOTAL_PAGES (pageId + 1)) false
  | .svgPrev pageId => goToPage s (max 1 (pageId - 1)) false
  | .navButton index =>
    match SECTION_NAV[index]? with
    | some entry => goToPage s entry.2 false
    | none => s
  | .home => goToPage s 1 false
  | .deepLink targetPage => goToPage s targetPage false
  | .transitionDone => completeTransition s
  | .svgLoaded pageId contentDocument => onSvgLoaded s pageId contentDocument
  | .play pageId => playPage s pageId

/-- Run a sequence of events, oldest first. -/
def run (s : State) (events : List Event) : State :=
  events.foldl step s

/-- The state after `buildNav`, `buildPages` and `setupSideNav`, before the
first navigation; the optional anchors of the document are parameters. -/
def initialState (gsap : Bool) (counter : Option String) (hasNav hasContainer : Bool) : State :=
  { gsap := gsap
    currentPageId := none
    sections := fun i =>
      if hasContainer ∧ 1 ≤ i ∧ i ≤ TOTAL_PAGES then
        some { active := false, opacity := none, hidden := false, xPercent := 0 }
      else none
    pageCounter := counter
    navButtons :=
      if hasNav then SECTION_NAV.map (fun entry => { targetPage := entry.2, active := false })
      else []
    pageState := fun _ => none
    built := []
    restarted := []
    pending := [] }

/-- Page sections exist for exactly the ids `1 .. 29`, as `buildPages` makes them. -/
def sectionsExactly (s : State) : Prop :=
  ∀ i : Int, (s.sections i).isSome = true ↔ 1 ≤ i ∧ i ≤ 29

/-- The page pointer is unset or a page id in `[1, 29]`. -/
def validPointer (s : State) : Prop :=
  s.currentPageId = none ∨ ∃ n : Int, s.currentPageId = some n ∧ 1 ≤ n ∧ n ≤ 29

/-- The event is a content load of page `p`. -/
def Event.loads (p : Int) : Event → Bool
  | .svgLoaded q _ => decide (q = p)
  | _ => false

/-- The state `goToPage` works on after its synchronous bookkeeping. -/
def afterBookkeeping (s : State) (P : Int) : State :=
  { s with
    currentPageId := some P
    pageCounter := s.pageCounter.map (fun _ => toString P ++ " / 29")
    navButtons := s.navButtons.map (fun b => { b with active := decide (b.targetPage = P) }) }

/-- The section `goToPage` captures as `oldSection`, by its page id. -/
def oldSectionOf (s : State) : Option Int :=
  match s.currentPageId with
  | some c => if c ≠ 0 ∧ (s.sections c).isSome = true then some c else none
  | none => none

/-- Page `p` holds the cached timeline `t`, and `n` timelines were built for it. -/
def cachedAt (p : Int) (t n : Nat) (s : State) : Prop :=
  s.gsap = true ∧ (∃ st, s.pageState p = some st ∧ st.timeline = some t) ∧
    s.built.count p = n

/-! ## Geometry classifier -/

/-- The function `getSvgSize`: the view box when both sides are truthy
(non-zero), else 1280 by 768. -/
def getSvgSize (svg : Svg) : ℚ × ℚ :=
  match svg.viewBox with
  | some (w, h) => if w ≠ 0 ∧ h ≠ 0 then (w, h) else (1280, 768)
  | none => (1280, 768)

/-- The function `getBBoxSafe`: the box, or `null` when `getBBox` throws. -/
def getBBoxSafe (el : Element) : Option BBox :=
  match el.getBBox with
  | some box => some box
  | none => none

/-- The function `getPathLength`: the traced length, or `null` when the
method is missing or throws. -/
def getPathLength (el : Element) : Option ℚ :=
  match el.getTotalLength with
  | some length => some length
  | none => none

/-- The pair `{ bigShapes, smallShapes }`. -/
structure ShapeSplit where
  bigShapes : List Element
  smallShapes : List Element
deriving DecidableEq

/-- One round of the `forEach` of `splitShapesByArea`. -/
def splitStep (fullArea : ℚ) (acc : ShapeSplit) (el : Element) : ShapeSplit :=
  match getBBoxSafe el with
  | none => acc
  | some box =>
    let area := box.width * box.height
    if area > fullArea * (5 / 100) then { acc with bigShapes := acc.bigShapes ++ [el] }
    else { acc with smallShapes := acc.smallShapes ++ [el] }

/-- The function `splitShapesByArea`. -/
def splitShapesByArea (svg : Svg) (shapes : List Element) : ShapeSplit :=
  let size := getSvgSize svg
  let fullArea := size.1 * size.2
  shapes.foldl (splitStep fullArea) { bigShapes := [], smallShapes := [] }

/-- The test of `detectBars` on a candidate. -/
def isBar (w h : ℚ) (el : Element) : Bool :=
  match getBBoxSafe el with
  | none => false
  | some box =>
    let aspect := box.height / (if box.width ≠ 0 then box.width else 1)
    let relHeight := box.height / h
    let relWidth := box.width / w
    decide (relHeight > 12 / 100 ∧ relWidth < 2 / 10 ∧ aspect > 15 / 10 ∧
      box.x > w * (3 / 100) ∧ box.x < w * (97 / 100) ∧
      box.y > h * (12 / 100) ∧ box.y < h * (97 / 100))

/-- The function `detectBars`. -/
def detectBars (svg : Svg) : List Element :=
  let size := getSvgSize svg
  let w := size.1
  let h := size.2
  (svg.querySelectorAll [Tag.rect, Tag.path]).filter (isBar w h)

/-- The test of `detectCurves` on a `path`. -/
def isCurvePath (w h : ℚ) (p : Element) : Bool :=
  match getPathLength p with
  | none => false
  | some length =>
    if length = 0 ∨ length < min w h * (35 / 100) then false
    else
      match getBBoxSafe p with
      | none => false
      | some box =>
        let relWidth := box.width / w
        let relHeight := box.height / h
        decide (relWidth > 25 / 100 ∧ relHeight > 12 / 100 ∧ relHeight < 8 / 10 ∧
          box.y > h * (2 / 100) ∧ box.y < h * (98 / 100))

/-- The function `detectCurves`: every polyline, then the paths that pass. -/
def detectCurves (svg : Svg) : List Element :=
  let size := getSvgSize svg
  let w := size.1
  let h := size.2
  svg.querySelectorAll [Tag.polyline] ++ (svg.querySelectorAll [Tag.path]).filter (isCurvePath w h)

/-- A JavaScript number that a division of finite numbers can produce. -/
inductive JsQuotient where
  | finite (q : ℚ)
  | posInfinity
  | negInfinity
  | nan
deriving DecidableEq

/-- JavaScript `a / b` on finite numbers, zero divisor included. -/
def jsDivide (a b : ℚ) : JsQuotient :=
  if b ≠ 0 then .finite (a / b)
  else if a > 0 then .posInfinity
  else if a < 0 then .negInfinity
  else .nan

/-- JavaScript `v > c` for a finite `c`. -/
def JsQuotient.exceeds (v : JsQuotient) (c : ℚ) : Bool :=
  match v with
  | .finite q => decide (q > c)
  | .posInfinity => true
  | .negInfinity => false
  | .nan => false

/-- The bar test in the words of the specification, the ratio height/width
read as the JavaScript quotient of the two box sides. -/
def barAsSpecified (w h : ℚ) (box : BBox) : Bool :=
  decide (box.height / h > 12 / 100 ∧ box.width / w < 2 / 10) &&
  (jsDivide box.height box.width).exceeds (15 / 10) &&
  decide (box.x > w * (3 / 100) ∧ box.x < w * (97 / 100) ∧
    box.y > h * (12 / 100) ∧ box.y < h * (97 / 100))

/-- The curve test in the words of the specification, for the traced length
and the box of a path or polyline. -/
def curveAsSpecified (w h : ℚ) (length : ℚ) (box : BBox) : Bool :=
  decide (length > min w h * (35 / 100) ∧ box.width / w > 25 / 100 ∧
    box.height / h > 12 / 100 ∧ box.height / h < 8 / 10 ∧
    box.y > h * (2 / 100) ∧ box.y < h * (98 / 100))

/-- The shape has a box whose area exceeds 5% of `fullArea`. -/
def isBigShape (fullArea : ℚ) (el : Element) : Bool :=
  match getBBoxSafe el with
  | none => false
  | some box => decide (box.width * box.height > fullArea * (5 / 100))

/-- The shape has a box whose area does not exceed 5% of `fullArea`. -/
def isSmallShape (fullArea : ℚ) (el : Element) : Bool :=
  match getBBoxSafe el with
  | none => false
  | some box => decide (¬ box.width * box.height > fullArea * (5 / 100))

/-- The shapes `buildPageTimeline` hands to `splitShapesByArea`. -/
def pageShapes (svg : Svg) : List Element :=
  svg.querySelectorAll
    [Tag.rect, Tag.circle, Tag.ellipse, Tag.line, Tag.polyline, Tag.polygon, Tag.path]

/-! ## Text helpers

JavaScript strings are lists of characters.  The built-ins `trim`,
`String.prototype.match`, `replace`, `parseFloat`, `Math.round`, `toString`
and `toFixed` follow ECMAScript on the inputs the script gives them. -/

/-- ECMAScript `WhiteSpace` and `LineTerminator` code points: what `trim`
removes and the class `\s` matches. -/
def isJsSpace (c : Char) : Bool :=
  c.toNat = 0x9 || c.toNat = 0xA || c.toNat = 0xB || c.toNat = 0xC || c.toNat = 0xD ||
  c.toNat = 0x20 || c.toNat = 0xA0 || c.toNat = 0x1680 ||
  (0x2000 ≤ c.toNat && c.toNat ≤ 0x200A) ||
  c.toNat = 0x2028 || c.toNat = 0x2029 || c.toNat = 0x202F || c.toNat = 0x205F ||
  c.toNat = 0x3000 || c.toNat = 0xFEFF

/-- The class `\d`: the ten ASCII digits. -/
def isDigit (c : Char) : Bool := 48 ≤ c.toNat && c.toNat ≤ 57

/-- The class `[\d.,]`. -/
def isNumberChar (c : Char) : Bool := isDigit c || c.toNat = 46 || c.toNat = 44

/-- The method `trim`. -/
def jsTrim (cs : List Char) : List Char :=
  ((cs.dropWhile isJsSpace).reverse.dropWhile isJsSpace).reverse

/-! ## Percentage counters -/

/-- The pattern `(\d+[\d.,]*)(\s*%)` tried at the head of `cs`; the result is
group 1.  Both quantified classes are greedy and every shorter choice leaves
a character of `[\d.,]` where `\s*%` must start, so the pattern matches here
exactly when the longest run of `[\d.,]` begins with a digit and is followed
by `\s*%`. -/
def matchPercentHere (cs : List Char) : Option (List Char) :=
  match cs with
  | [] => none
  | c :: _ =>
    if isDigit c then
      match (cs.dropWhile isNumberChar).dropWhile isJsSpace with
      | [] => none
      | p :: _ => if p.toNat = 37 then some (cs.takeWhile isNumberChar) else none
    else none

/-- The call `raw.match(/(\d+[\d.,]*)(\s*%)/)`: `m.index` and `m[1]` of the
leftmost match, `none` for `null`. -/
def matchPercent : List Char → Option (Nat × List Char)
  | [] => none
  | c :: cs =>
    match matchPercentHere (c :: cs) with
    | some numStr => some (0, numStr)
    | none =>
      match matchPercent cs with
      | some (index, numStr) => some (index + 1, numStr)
      | none => none

/-- The call `numStr.replace(",", ".")`: a string pattern replaces the first
occurrence only. -/
def replaceFirstComma : List Char → List Char
  | [] => []
  | c :: cs => if c.toNat = 44 then '.' :: cs else c :: replaceFirstComma cs

/-- The value of a run of decimal digits. -/
def digitsValue (ds : List Char) : Nat :=
  ds.foldl (fun acc c => 10 * acc + (c.toNat - 48)) 0

/-- The decimal literal `parseFloat` reads at the head of unsigned text
without exponent: value of the integer digits, value and number of the
fraction digits; `none` when there is no digit. -/
def parseDecimal (cs : List Char) : Option (Nat × Nat × Nat) :=
  let intDigits := cs.takeWhile isDigit
  match cs.dropWhile isDigit with
  | [] => if intDigits = [] then none else some (digitsValue intDigits, 0, 0)
  | p :: more =>
    if p.toNat = 46 then
      let fracDigits := more.takeWhile isDigit
      if intDigits = [] ∧ fracDigits = [] then none
      else some (digitsValue intDigits, digitsValue fracDigits, fracDigits.length)
    else if intDigits = [] then none else some (digitsValue intDigits, 0, 0)

/-! ### IEEE doubles -/

/-- The power `2 ^ e` for an integer exponent. -/
def pow2 (e : Int) : ℚ :=
  if 0 ≤ e then ((2 ^ e.toNat : Nat) : ℚ) else 1 / ((2 ^ (-e).toNat : Nat) : ℚ)

/-- The number of binary digits of `n`. -/
def bitLength (n : Nat) : Nat := (Nat.toDigits 2 n).length

/-- The binary exponent of a positive `x`: the `e` with `2 ^ e ≤ x < 2 ^ (e + 1)`. -/
def floorLog2 (x : ℚ) : Int :=
  let e0 : Int := (bitLength x.num.toNat : Int) - (bitLength x.den : Int)
  if pow2 e0 ≤ x then e0 else e0 - 1

/-- The nearest integer, the even one on a tie. -/
def roundHalfEven (m : ℚ) : Int :=
  let f := ⌊m⌋
  if m - f < 1 / 2 then f
  else if 1 / 2 < m - f then f + 1
  else if f % 2 = 0 then f else f + 1

/-- The Number value for a non-negative real: the nearest binary64 value,
ties to even, with 53 significant bits and the least exponent −1074; `none`
is `Infinity`. -/
def nearestDouble (x : ℚ) : Option ℚ :=
  if x ≤ 0 then some 0
  else
    let q := max (floorLog2 x - 52) (-1074)
    let y := (roundHalfEven (x / pow2 q) : ℚ) * pow2 q
    if pow2 1024 ≤ y then none else some y

/-- The result of `parseFloat`. -/
inductive ParsedNumber where
  | nan
  | finite (value : ℚ)
  | infinity
deriving DecidableEq

/-- The function `parseFloat` on such text: the double nearest to the
decimal literal at the head. -/
def parseFloat (cs : List Char) : ParsedNumber :=
  match parseDecimal cs with
  | none => .nan
  | some (intValue, fracValue, fracLength) =>
    match nearestDouble ((intValue : ℚ) + (fracValue : ℚ) / 10 ^ fracLength) with
    | some value => .finite value
    | none => .infinity

/-- The function `Math.round`: halves go up. -/
def mathRound (x : ℚ) : Int := ⌊x + 1 / 2⌋

/-- A digit string without its trailing zeros. -/
def stripTrailingZeros (ds : List Char) : List Char :=
  (ds.reverse.dropWhile (fun c => c = '0')).reverse

/-- The digits `Number::toString` can use with `k` significant places for
the whole double `x` of `n` decimal digits: the neighbour of `x` on the grid
of `10 ^ (n - k)` that reads back as `x` (the closer one, the even one on a
tie), with the number of zeros that follow it. -/
def shortestAt (x n k : Nat) : Option (Nat × Nat) :=
  let e := n - k
  let p := 10 ^ e
  let lo := x / p
  let hi := lo + 1
  let okLo := decide (nearestDouble ((lo * p : Nat) : ℚ) = some (x : ℚ))
  let okHi := decide (nearestDouble ((hi * p : Nat) : ℚ) = some (x : ℚ))
  if okLo && okHi then
    if x - lo * p < hi * p - x then some (lo, e)
    else if hi * p - x < x - lo * p then some (hi, e)
    else if lo % 2 = 0 then some (lo, e) else some (hi, e)
  else if okLo then some (lo, e)
  else if okHi then some (hi, e)
  else none

/-- The shortest digits that read back as the whole double `x`, and the
number of zeros that follow them; at most 17 places are needed. -/
def shortestDigits (x : Nat) : Nat × Nat :=
  match (List.range 17).findSome? (fun i => shortestAt x (Nat.toDigits 10 x).length (i + 1)) with
  | some pair => pair
  | none => (x, 0)

/-- The method `toString` of a whole non-negative number.  Below 2^53 every
whole number is a double and its own digits are the shortest that read back
as it; from there up to 10^21 the shortest digits are padded with zeros; from
10^21 on the exponent notation is used. -/
def natToString (x : Nat) : List Char :=
  if x < 2 ^ 53 then Nat.toDigits 10 x
  else
    let pair := shortestDigits x
    let digits := Nat.toDigits 10 pair.1
    if x < 10 ^ 21 then digits ++ List.replicate pair.2 '0'
    else
      let significant := stripTrailingZeros digits
      let exponent := digits.length + pair.2 - 1
      match significant with
      | [] => ['0']
      | d :: rest =>
        (d :: (if rest = [] then [] else '.' :: rest)) ++ ['e', '+'] ++ Nat.toDigits 10 exponent

/-- The method `toString` of an integral number. -/
def intToString (z : Int) : List Char :=
  if z < 0 then '-' :: natToString z.natAbs else natToString z.toNat

/-- The method `toFixed(1)`: below 10^21 the nearest multiple of 1/10, the
larger one on a tie, written with one fraction digit; from 10^21 on (where
every double is whole) the result of `toString`. -/
def toFixed1 (x : ℚ) : List Char :=
  let a := if x < 0 then -x else x
  let n := (mathRound (a * 10)).toNat
  (if x < 0 then ['-'] else []) ++
    (if 10 ^ 21 ≤ a then natToString ⌊a⌋.toNat
     else Nat.toDigits 10 (n / 10) ++ ['.'] ++ Nat.toDigits 10 (n % 10))

/-- The tween `addPercentageNumberRolls` adds for one text node when the
parsed value is finite: the counter runs from `startValue` to `finalValue`;
`suffix` is captured by `onUpdate`. -/
structure NumberRoll where
  startValue : ℚ
  finalValue : ℚ
  suffix : List Char

/-- The callback `onUpdate`: the text written into the node when
`counter.value` is `counterValue`. -/
def NumberRoll.onUpdate (r : NumberRoll) (counterValue : ℚ) : String :=
  String.mk
    ((if r.finalValue = ⌊r.finalValue⌋ then intToString (mathRound counterValue)
      else toFixed1 counterValue) ++ r.suffix)

/-- What the body of the `forEach` of `addPercentageNumberRolls` does for one
text node: nothing (no match, or `NaN`), a tween with a finite end value, or
a tween whose end value is `Infinity`, for which `onUpdate` writes
`toFixed(1)` of `NaN` or `Infinity` in front of the suffix. -/
inductive RollOutcome where
  | noTween
  | finiteTween (roll : NumberRoll)
  | infiniteTween (suffix : List Char)

/-- The body of the `forEach` of `addPercentageNumberRolls` for a node with
the given text content. -/
def rollOutcome (textContent : String) : RollOutcome :=
  let raw := jsTrim textContent.toList
  match matchPercent raw with
  | none => .noTween
  | some (index, numStr) =>
    let suffix := raw.drop (index + numStr.length)
    match parseFloat (replaceFirstComma numStr) with
    | .nan => .noTween
    | .finite finalValue =>
      .finiteTween { startValue := 0, finalValue := finalValue, suffix := suffix }
    | .infinity => .infiniteTween suffix

/-- The tween of a node with the given text content, when the node gets one
with a finite end value. -/
def rollOfText (textContent : String) : Option NumberRoll :=
  match rollOutcome textContent with
  | .finiteTween roll => some roll
  | _ => none

/-- The function `addPercentageNumberRolls`: the text nodes that get a tween,
each with what is added for it. -/
def addPercentageNumberRolls (svg : Svg) : List (Element × RollOutcome) :=
  (svg.querySelectorAll [Tag.text]).filterMap
    (fun node =>
      match rollOutcome node.textContent with
      | .noTween => none
      | outcome => some (node, outcome))

/-- A number as it stands in a text: integer digits, then possibly a first
separator (`.` or `,`), fraction digits, and further characters of the class
`[\d.,]` that begin with a separator. -/
structure SourceNumber where
  intDigits : List Char
  separator : Option Char
  fracDigits : List Char
  rest : List Char

/-- The characters of the number in the text. -/
def SourceNumber.text (n : SourceNumber) : List Char :=
  n.intDigits ++
    (match n.separator with
      | none => []
      | some sep => sep :: (n.fracDigits ++ n.rest))

/-- The parts are what their names say. -/
def SourceNumber.wellFormed (n : SourceNumber) : Bool :=
  !n.intDigits.isEmpty && n.intDigits.all isDigit &&
    (match n.separator with
      | none => n.fracDigits.isEmpty && n.rest.isEmpty
      | some sep =>
        (sep.toNat = 46 || sep.toNat = 44) && n.fracDigits.all isDigit &&
          n.rest.all isNumberChar &&
          (match n.rest with
            | [] => true
            | c :: _ => !isDigit c))

/-- The natural number a run of decimal digits denotes, in positional
notation. -/
def decimalDigits (ds : List Char) : Nat :=
  Nat.ofDigits 10 (ds.reverse.map (fun c => c.toNat - 48))

/-- The value the number denotes when its first separator is read as the
decimal point: integer part plus fraction. -/
def SourceNumber.value (n : SourceNumber) : ℚ :=
  (decimalDigits n.intDigits : ℚ) + (decimalDigits n.fracDigits : ℚ) / 10 ^ n.fracDigits.length

/-- What the roll-up is to do for a number of the given value followed by
the given suffix: run to the double nearest to the value. -/
def expectedOutcome (value : ℚ) (suffix : List Char) : RollOutcome :=
  match nearestDouble value with
  | some v => .finiteTween { startValue := 0, finalValue := v, suffix := suffix }
  | none => .infiniteTween suffix

/-! ## Citations -/

/-- The test `/^\d{1,2}$/.test(raw)`. -/
def isCitationMarker (raw : List Char) : Bool :=
  match raw with
  | [] => false
  | a :: rest =>
    isDigit a &&
      (match rest with
        | [] => true
        | b :: more => isDigit b && more.isEmpty)

/-- The function `enhanceCitations`: the nodes that receive the click handler,
each with the `raw` its handler captures (also stored as `dataset.refId`). -/
def enhanceCitations (svg : Svg) : List (Element × String) :=
  (svg.querySelectorAll [Tag.text, Tag.tspan]).filterMap
    (fun node =>
      let raw := jsTrim node.textContent.toList
      if isCitationMarker raw then some (node, String.mk raw) else none)

/-- The element `#citation-modal`: the class `hidden` and the attribute
`aria-hidden`. -/
structure ModalElement where
  hidden : Bool
  ariaHidden : Option String
deriving DecidableEq, Repr

/-- The citation overlay of the document: the modal, the text of
`#citation-id` and the text of `#citation-text`, each `none` when absent. -/
structure CitationOverlay where
  modal : Option ModalElement
  idSpan : Option String
  textDiv : Option String
deriving DecidableEq, Repr

/-- The fallback text of `getReferenceText`. -/
def GENERIC_REFERENCE : String :=
  "Please see the References page in the brochure for full citation details."

/-- The function `getReferenceText`; `references` is the table `REFERENCES`,
an entry counts when it is truthy, that is a non-empty text. -/
def getReferenceText (references : String → Option String) (refId : String) : String :=
  match references refId with
  | some text => if text ≠ "" then text else GENERIC_REFERENCE
  | none => GENERIC_REFERENCE

/-- The table `REFERENCES` as shipped: empty. -/
def REFERENCES : String → Option String := fun _ => none

/-- The function `openCitationModal`. -/
def openCitationModal (references : String → Option String) (overlay : CitationOverlay)
    (refId : String) : CitationOverlay :=
  match overlay.modal, overlay.idSpan, overlay.textDiv with
  | some _, some _, some _ =>
    { modal := some { hidden := false, ariaHidden := some "false" }
      idSpan := some refId
      textDiv := some (getReferenceText references refId) }
  | _, _, _ => overlay

/-! ## Interaction wiring

An element reference is the position of the element in document order
together with the element: two nodes with the same attributes stay distinct.
A click handler that navigates is recorded with the node it is attached to
and the page its `goToPage` call targets. -/

/-- A node of a page: position in document order and element. -/
abbrev NodeRef := Nat × Element

/-- The nodes of a page in document order. -/
def Svg.nodes (svg : Svg) : List NodeRef :=
  svg.elements.enumFrom 0

/-- The selector call `svg.querySelectorAll` for a list of element names,
with the positions of the nodes. -/
def Svg.selectNodes (svg : Svg) (tags : List Tag) : List NodeRef :=
  svg.nodes.filter (fun n => decide (n.2.tag ∈ tags))

/-- The call `svg.getElementById`: the first node with that id. -/
def Svg.getElementById (svg : Svg) (id : String) : Option NodeRef :=
  svg.nodes.find? (fun n => decide (n.2.id = id))

/-- A navigating click handler: `node.addEventListener("click", () =>
goToPage(targetPage))`. -/
structure NavHandler where
  node : NodeRef
  targetPage : Int
deriving DecidableEq

/-- The effect of a click on a navigating handler. -/
def NavHandler.click (handler : NavHandler) (s : State) : State :=
  goToPage s handler.targetPage false

/-- The number of navigating handlers the node at `position` carries. -/
def handlersOn (handlers : List NavHandler) (position : Nat) : Nat :=
  (handlers.filter (fun handler => decide (handler.node.1 = position))).length

/-- The method `includes`: `needle` occurs in `text`. -/
def includes (text needle : List Char) : Bool :=
  text.tails.any (fun rest => needle.isPrefixOf rest)

/-- The method `toLowerCase` on the ASCII letters; other characters are kept
(the labels and ids the script looks for are ASCII). -/
def toLowerCase (text : List Char) : List Char :=
  text.map Char.toLower

/-- The statement `if (area < bestArea) { bestArea = area; best = el; }` on
the pair `best`, `bestArea`; `none` is the initial pair `null`, `Infinity`. -/
def keepSmaller (acc : Option (NodeRef × ℚ)) (el : NodeRef) (area : ℚ) :
    Option (NodeRef × ℚ) :=
  match acc with
  | none => some (el, area)
  | some (best, bestArea) => if area < bestArea then some (el, area) else some (best, bestArea)

/-- The test `/home|house/i.test(el.id)`. -/
def matchesHomeOrHouse (id : String) : Bool :=
  includes (toLowerCase id.toList) "home".toList || includes (toLowerCase id.toList) "house".toList

/-- One round of the last `forEach` of `findHomeIconCandidate`. -/
def homeStep (w h : ℚ) (acc : Option (NodeRef × ℚ)) (el : NodeRef) : Option (NodeRef × ℚ) :=
  match getBBoxSafe el.2 with
  | none => acc
  | some box =>
    let cx := box.x + box.width / 2
    let cy := box.y + box.height / 2
    if cx < w * (8 / 10) ∨ cy < h * (8 / 10) then acc
    else keepSmaller acc el (max 1 (box.width * box.height))

/-- The function `findHomeIconCandidate`: a known id, else an id that
contains `home` or `house`, else the smallest boxed element whose centre lies
in the bottom-right fifth of the page. -/
def findHomeIconCandidate (svg : Svg) : Option NodeRef :=
  match ["home", "home-icon", "house", "mixif-home"].findSome? svg.getElementById with
  | some el => some el
  | none =>
    match svg.nodes.find? (fun n => matchesHomeOrHouse n.2.id) with
    | some guess => some guess
    | none =>
      let size := getSvgSize svg
      let all := svg.selectNodes
        [Tag.g, Tag.image, Tag.rect, Tag.path, Tag.circle, Tag.ellipse, Tag.polygon]
      (all.foldl (homeStep size.1 size.2) none).map (fun pair => pair.1)

/-- The function `wireHomeIcon`: the handlers it attaches (the endless pulse
it starts on the node is engine-side). -/
def wireHomeIcon (gsap : Bool) (pageId : Int) (svg : Svg) : List NavHandler :=
  if pageId = 1 ∨ gsap = false then []
  else
    match findHomeIconCandidate svg with
    | none => []
    | some homeNode => [{ node := homeNode, targetPage := 1 }]

/-- One round of the `forEach` of `findBackgroundRectForText`. -/
def rectStep (cx cy : ℚ) (acc : Option (NodeRef × ℚ)) (r : NodeRef) : Option (NodeRef × ℚ) :=
  match getBBoxSafe r.2 with
  | none => acc
  | some b =>
    if cx ≥ b.x ∧ cx ≤ b.x + b.width ∧ cy ≥ b.y ∧ cy ≤ b.y + b.height then
      keepSmaller acc r (b.width * b.height)
    else acc

/-- The function `findBackgroundRectForText`. -/
def findBackgroundRectForText (svg : Svg) (textNode : Element) : Option NodeRef :=
  match getBBoxSafe textNode with
  | none => none
  | some box =>
    let cx := box.x + box.width / 2
    let cy := box.y + box.height / 2
    ((svg.selectNodes [Tag.rect]).foldl (rectStep cx cy) none).map (fun pair => pair.1)

/-- What `attachTextNavigation` leaves on a page: the texts flagged
`dataset.navTargetAssigned`, by position, and the handlers attached, oldest
first. -/
structure Wiring where
  assigned : List Nat
  handlers : List NavHandler
deriving DecidableEq

/-- One round of the `forEach` of `attachTextNavigation`. -/
def attachStep (svg : Svg) (normLabel : List Char) (targetPage : Int) (w : Wiring)
    (t : NodeRef) : Wiring :=
  if t.1 ∈ w.assigned then w
  else
    let txt := toLowerCase (jsTrim t.2.textContent.toList)
    if txt = [] ∨ includes txt normLabel = false then w
    else
      let onText : List NavHandler := [{ node := t, targetPage := targetPage }]
      let onRect : List NavHandler :=
        match findBackgroundRectForText svg t.2 with
        | some rect => [{ node := rect, targetPage := targetPage }]
        | none => []
      { assigned := w.assigned ++ [t.1], handlers := w.handlers ++ onText ++ onRect }

/-- The function `attachTextNavigation`. -/
def attachTextNavigation (svg : Svg) (labelSubstring : String) (targetPage : Int)
    (w : Wiring) : Wiring :=
  (svg.selectNodes [Tag.text]).foldl
    (attachStep svg (toLowerCase labelSubstring.toList) targetPage) w

/-- The function `wireHomePageButtons`, on a freshly loaded page. -/
def wireHomePageButtons (svg : Svg) : Wiring :=
  SECTION_NAV.foldl (fun w entry => attachTextNavigation svg entry.1 entry.2 w)
    { assigned := [], handlers := [] }

/-- The table `mapping` of `wireIndicationsLinks`. -/
def INDICATION_LINKS : List (String × Int) :=
  [("Otitis media", 9), ("Acute otitis media", 9), ("Pharyngitis", 5), ("tonsilitis", 5),
   ("tonsillitis", 5), ("Bacterial gastroenteritis", 19), ("uncomplicated urinary", 14),
   ("uncomplicated urethral", 17)]

/-- The function `wireIndicationsLinks`, on a freshly loaded page. -/
def wireIndicationsLinks (svg : Svg) : Wiring :=
  INDICATION_LINKS.foldl (fun w entry => attachTextNavigation svg entry.1 entry.2 w)
    { assigned := [], handlers := [] }

/-- The bounds of the element contain the point: the test `inside` of
`findBackgroundRectForText`, false when the element has no box. -/
def enclosesPoint (cx cy : ℚ) (el : Element) : Bool :=
  match el.getBBox with
  | some b => decide (b.x ≤ cx ∧ cx ≤ b.x + b.width ∧ b.y ≤ cy ∧ cy ≤ b.y + b.height)
  | none => false

/-- The area width*height of the box of the element, 0 without box. -/
def boxArea (el : Element) : ℚ :=
  match el.getBBox with
  | some b => b.width * b.height
  | none => 0

/-- Every text of the page carries at most one handler, and none while it is
not flagged. -/
def textsGuarded (svg : Svg) (w : Wiring) : Prop :=
  ∀ t ∈ svg.selectNodes [Tag.text],
    handlersOn w.handlers t.1 ≤ 1 ∧ (t.1 ∉ w.assigned → handlersOn w.handlers t.1 = 0)

/-! ## Sample content used to instantiate the theorems -/

/-- A rectangle with the given box. -/
def sampleRect (x y width height : ℚ) : Element :=
  { tag := Tag.rect, id := "", textContent := "",
    getBBox := some { x := x, y := y, width := width, height := height },
    getTotalLength := none }

/-- A path with the given box and traced length. -/
def samplePath (x y width height length : ℚ) : Element :=
  { tag := Tag.path, id := "", textContent := "",
    getBBox := some { x := x, y := y, width := width, height := height },
    getTotalLength := some length }

/-- A page of area 100000 holding a card and a 40 by 10 chip. -/
def samplePage : Svg :=
  { viewBox := some (400, 250)
    elements := [sampleRect 0 0 300 200, sampleRect 10 10 40 10] }

/-- A 10 by 5 page holding one vertical stroke, a path whose box has no width. -/
def strokePage : Svg :=
  { viewBox := some (10, 5), elements := [samplePath 5 1 0 1 1] }

/-- A page without view box holding the bar of the specification's example. -/
def barPage : Svg :=
  { viewBox := none, elements := [sampleRect 500 200 60 200] }

/-- A polyline with the given box and traced length. -/
def samplePolyline (x y width height length : ℚ) : Element :=
  { tag := Tag.polyline, id := "", textContent := "",
    getBBox := some { x := x, y := y, width := width, height := height },
    getTotalLength := some length }

/-- A 100 by 100 page holding a tiny polyline and a path whose traced length
is exactly 35% of the page side. -/
def curvePage : Svg :=
  { viewBox := some (100, 100)
    elements := [samplePolyline 0 0 1 1 1, samplePath 10 10 30 20 35] }

/-- A page without view box holding one trend line. -/
def trendPage : Svg :=
  { viewBox := none, elements := [samplePath 100 100 400 200 300] }

/-- A polyline whose `getBBox` and `getTotalLength` throw. -/
def detachedPolyline : Element :=
  { tag := Tag.polyline, id := "", textContent := "", getBBox := none, getTotalLength := none }

/-- A page without view box holding a rectangle with an empty box and a
polyline without box. -/
def degeneratePage : Svg :=
  { viewBox := none, elements := [sampleRect 0 0 0 0, detachedPolyline] }

/-- A text node with the given content. -/
def sampleText (content : String) : Element :=
  { tag := Tag.text, id := "", textContent := content, getBBox := none, getTotalLength := none }

/-- A page without view box whose only element is one text node. -/
def textPage (content : String) : Svg :=
  { viewBox := none, elements := [sampleText content] }

/-- A group with the given id and no box. -/
def sampleGroup (id : String) : Element :=
  { tag := Tag.g, id := id, textContent := "", getBBox := none, getTotalLength := none }

/-- A page without view box holding a group with the id `home`. -/
def homeIconPage : Svg :=
  { viewBox := none, elements := [sampleRect 0 0 1280 768, sampleGroup "home"] }

/-- A label with a 20 by 20 box centred at (120, 110). -/
def capsuleLabel : Element :=
  { tag := Tag.text, id := "", textContent := "Dosing",
    getBBox := some { x := 110, y := 100, width := 20, height := 20 },
    getTotalLength := none }

/-- A page without view box: a panel, a capsule inside it, a second capsule
of the same area, and a label centred in all three. -/
def capsulePage : Svg :=
  { viewBox := none
    elements :=
      [sampleRect 0 0 400 300, sampleRect 90 90 100 40, sampleRect 100 80 40 100,
       capsuleLabel] }

/-- A text with the given content and box. -/
def sampleLabel (content : String) (x y width height : ℚ) : Element :=
  { tag := Tag.text, id := "", textContent := content,
    getBBox := some { x := x, y := y, width := width, height := height },
    getTotalLength := none }

/-- A landing page on which the labels `Introduction` and `Indications` sit
on one common rectangle. -/
def sharedCapsulePage : Svg :=
  { viewBox := none
    elements :=
      [sampleRect 0 0 200 100, sampleLabel "Introduction" 10 10 80 20,
       sampleLabel "Indications" 10 50 80 20] }

/-! ## THEOREMS -/

/-! ## Navigation: frame lemmas -/

section frame

variable (s : State) (k : Int)

@[simp] theorem modifySection_gsap (g : PageSection → PageSection) :
    (modifySection s k g).gsap = s.gsap := by
  unfold modifySection; split <;> rfl

@[simp] theorem modifySection_currentPageId (g : PageSection → PageSection) :
    (modifySection s k g).currentPageId = s.currentPageId := by
  unfold modifySection; split <;> rfl

@[simp] theorem modifySection_pageCounter (g : PageSection → PageSection) :
    (modifySection s k g).pageCounter = s.pageCounter := by
  unfold modifySection; split <;> rfl

@[simp] theorem modifySection_pageState (g : PageSection → PageSection) :
    (modifySection s k g).pageState = s.pageState := by
  unfold modifySection; split <;> rfl

@[simp] theorem modifySection_built (g : PageSection → PageSection) :
    (modifySection s k g).built = s.built := by
  unfold modifySection; split <;> rfl

@[simp] theorem modifySection_restarted (g : PageSection → PageSection) :
    (modifySection s k g).restarted = s.restarted := by
  unfold modifySection; split <;> rfl

theorem modifySection_sections_same (g : PageSection → PageSection) (sec : PageSection)
    (h : s.sections k = some sec) :
    (modifySection s k g).sections k = some (g sec) := by
  unfold modifySection; rw [h]; simp [setAt]

theorem modifySection_sections_other (g : PageSection → PageSection) (j : Int) (h : j ≠ k) :
    (modifySection s k g).sections j = s.sections j := by
  unfold modifySection; split <;> simp [setAt, h]

theorem modifySection_isSome (g : PageSection → PageSection) (j : Int) :
    ((modifySection s k g).sections j).isSome = (s.sections j).isSome := by
  unfold modifySection
  split
  · rename_i sec hsec
    by_cases hj : j = k
    · subst hj; simp [setAt, hsec]
    · simp [setAt, hj]
  · rfl

theorem playPage_no_engine (h : s.gsap = false) : playPage s k = s := by
  unfold playPage; simp [h]

theorem playPage_unloaded (h : s.pageState k = none) : playPage s k = s := by
  unfold playPage; simp [h]

theorem playPage_cached (hg : s.gsap = true) (st : PageRuntime) (t : Nat)
    (h : s.pageState k = some st) (ht : st.timeline = some t) :
    playPage s k = { s with restarted := s.restarted ++ [t] } := by
  unfold playPage; simp [hg, h, ht]

theorem playPage_fresh (hg : s.gsap = true) (st : PageRuntime)
    (h : s.pageState k = some st) (ht : st.timeline = none) :
    playPage s k =
      { s with
        pageState := setAt s.pageState k { st with timeline := some s.built.length }
        built := s.built ++ [k]
        restarted := s.restarted ++ [s.built.length] } := by
  unfold playPage buildPageTimeline; simp [hg, h, ht]

theorem playPage_shape :
    ∃ ps b r, playPage s k = { s with pageState := ps, built := b, restarted := r } := by
  by_cases hg : s.gsap = true
  case neg =>
    exact ⟨s.pageState, s.built, s.restarted, by
      rw [playPage_no_engine s k (by simpa using hg)]⟩
  case pos =>
    cases hps : s.pageState k with
    | none => exact ⟨s.pageState, s.built, s.restarted, by rw [playPage_unloaded s k hps]⟩
    | some st =>
      cases htl : st.timeline with
      | some t => exact ⟨s.pageState, s.built, _, by rw [playPage_cached s k hg st t hps htl]⟩
      | none => exact ⟨_, _, _, by rw [playPage_fresh s k hg st hps htl]⟩

@[simp] theorem playPage_gsap : (playPage s k).gsap = s.gsap := by
  obtain ⟨ps, b, r, h⟩ := playPage_shape s k
  rw [h]

@[simp] theorem playPage_currentPageId : (playPage s k).currentPageId = s.currentPageId := by
  obtain ⟨ps, b, r, h⟩ := playPage_shape s k
  rw [h]

@[simp] theorem playPage_pageCounter : (playPage s k).pageCounter = s.pageCounter := by
  obtain ⟨ps, b, r, h⟩ := playPage_shape s k
  rw [h]

@[simp] theorem playPage_sections : (playPage s k).sections = s.sections := by
  obtain ⟨ps, b, r, h⟩ := playPage_shape s k
  rw [h]

end frame

/-! ## Navigation: `goToPage` -/

theorem updatePageCounter_pageCounter (s : State) (P : Int) :
    (updatePageCounter s P).pageCounter = s.pageCounter.map (fun _ => toString P ++ " / 29") := by
  unfold updatePageCounter
  cases h : s.pageCounter with
  | none => simp [h]
  | some t =>
    simp only [Option.map_some']
    rw [String.append_assoc]
    rfl

theorem goToPage_no_section (s : State) (P : Int) (instant : Bool)
    (h : s.sections P = none) : goToPage s P instant = s := by
  unfold goToPage; rw [h]

theorem goToPage_currentPageId (s : State) (P : Int) (instant : Bool)
    (h : (s.sections P).isSome = true) : (goToPage s P instant).currentPageId = some P := by
  obtain ⟨sec, hsec⟩ := Option.isSome_iff_exists.mp h
  unfold goToPage
  rw [hsec]
  dsimp only
  split
  · simp [updateNavActiveByPage, updatePageCounter]
    split <;> rfl
  · split
    · simp [updateNavActiveByPage, updatePageCounter]
      split <;> rfl
    · simp [updateNavActiveByPage, updatePageCounter]
      split <;> rfl

theorem updatePageCounter_shape (s : State) (P : Int) :
    updatePageCounter s P =
      { s with pageCounter := s.pageCounter.map (fun _ => toString P ++ " / 29") } := by
  cases s with
  | mk g c se pc nb ps b r pe =>
    cases pc with
    | none => rfl
    | some t =>
      simp only [updatePageCounter, Option.map_some']
      rw [String.append_assoc]
      rfl

theorem goToPage_instant_path (s : State) (P : Int) (instant : Bool)
    (h : (s.sections P).isSome = true) (hpath : s.gsap = false ∨ instant = true ∨ oldSectionOf s = none) :
    goToPage s P instant =
      playPage
        (modifySection
          (match oldSectionOf s with
            | some old => modifySection (afterBookkeeping s P) old
                (fun sec => { sec with active := false, opacity := some 0 })
            | none => afterBookkeeping s P)
          P (fun sec => { sec with active := true, opacity := some 1 })) P := by
  obtain ⟨sec, hsec⟩ := Option.isSome_iff_exists.mp h
  unfold goToPage
  rw [hsec]
  simp only [updatePageCounter_shape, updateNavActiveByPage, truthyPage]
  unfold oldSectionOf at hpath ⊢
  cases hc : s.currentPageId with
  | none => simp [afterBookkeeping]
  | some c =>
    rw [hc] at hpath
    simp only [ne_eq, decide_not, Bool.not_eq_true', decide_eq_false_iff_not,
      Bool.decide_and, Bool.decide_eq_true] at hpath ⊢
    by_cases hold : c ≠ 0 ∧ (s.sections c).isSome = true
    · have hold2 : (¬ c = 0) ∧ (s.sections c).isSome = true := hold
      simp only [hold2, and_self, ↓reduceIte, not_false_eq_true] at hpath ⊢
      have hp : s.gsap = false ∨ instant = true := by
        rcases hpath with h1 | h1 | h1
        · exact Or.inl h1
        · exact Or.inr h1
        · simp at h1
      rcases hp with h1 | h1
      · simp [h1, afterBookkeeping]
      · simp [h1, afterBookkeeping]
    · have hold2 : ¬ ((¬ c = 0) ∧ (s.sections c).isSome = true) := hold
      simp [hold2, afterBookkeeping]

theorem goToPage_animated_path (s : State) (P : Int) (old : Int)
    (h : (s.sections P).isSome = true) (hg : s.gsap = true) (hold : oldSectionOf s = some old) :
    goToPage s P false =
      { afterBookkeeping s P with
        pending := s.pending ++
          [{ oldPage := old, targetPage := P, direction := if P > old then 1 else -1 }] } := by
  obtain ⟨sec, hsec⟩ := Option.isSome_iff_exists.mp h
  unfold goToPage
  rw [hsec]
  simp only [updatePageCounter_shape, updateNavActiveByPage, truthyPage]
  unfold oldSectionOf at hold
  cases hc : s.currentPageId with
  | none => rw [hc] at hold; simp at hold
  | some c =>
    rw [hc] at hold
    dsimp only at hold
    by_cases hcond : c ≠ 0 ∧ (s.sections c).isSome = true
    · rw [if_pos hcond] at hold
      have hco : c = old := Option.some.inj hold
      subst hco
      have h1 : ¬ c = 0 := hcond.1
      simp [h1, hcond.2, hg, afterBookkeeping]
    · rw [if_neg hcond] at hold
      simp at hold

theorem goToPage_cases (s : State) (P : Int) (instant : Bool) :
    goToPage s P instant = s ∨
    (∃ s1 : State, goToPage s P instant = playPage s1 P ∧
      s1.currentPageId = some P ∧ (s.sections P).isSome = true ∧
      s1.gsap = s.gsap ∧ s1.pageState = s.pageState ∧ s1.built = s.built ∧
      s1.restarted = s.restarted ∧
      ∀ j, (s1.sections j).isSome = (s.sections j).isSome) ∨
    (∃ pend, goToPage s P instant = { afterBookkeeping s P with pending := pend } ∧
      (s.sections P).isSome = true) := by
  cases hsec : s.sections P with
  | none => exact Or.inl (goToPage_no_section s P instant hsec)
  | some sec =>
    have h : (s.sections P).isSome = true := by simp [hsec]
    by_cases hpath : s.gsap = false ∨ instant = true ∨ oldSectionOf s = none
    · right; left
      refine ⟨_, goToPage_instant_path s P instant h hpath, ?_, rfl, ?_, ?_, ?_, ?_, ?_⟩
      · rw [modifySection_currentPageId]
        cases oldSectionOf s <;> simp [afterBookkeeping]
      · rw [modifySection_gsap]
        cases oldSectionOf s <;> simp [afterBookkeeping]
      · rw [modifySection_pageState]
        cases oldSectionOf s <;> simp [afterBookkeeping]
      · rw [modifySection_built]
        cases oldSectionOf s <;> simp [afterBookkeeping]
      · rw [modifySection_restarted]
        cases oldSectionOf s <;> simp [afterBookkeeping]
      · intro j
        rw [modifySection_isSome]
        cases oldSectionOf s with
        | none => simp [afterBookkeeping]
        | some old => rw [modifySection_isSome]; simp [afterBookkeeping]
    · right; right
      simp only [not_or] at hpath
      obtain ⟨hg, hi, hold⟩ := hpath
      have hg1 : s.gsap = true := by simpa using hg
      have hi1 : instant = false := by simpa using hi
      obtain ⟨old, hold1⟩ := Option.ne_none_iff_exists'.mp hold
      subst hi1
      exact ⟨_, goToPage_animated_path s P old h hg1 hold1, rfl⟩

theorem goToPage_isSome (s : State) (P : Int) (instant : Bool) (j : Int) :
    ((goToPage s P instant).sections j).isSome = (s.sections j).isSome := by
  rcases goToPage_cases s P instant with h | ⟨s1, h, _, _, _, _, _, _, hs⟩ | ⟨pend, h, _⟩
  · rw [h]
  · rw [h, playPage_sections, hs]
  · rw [h]; rfl

theorem goToPage_gsap (s : State) (P : Int) (instant : Bool) :
    (goToPage s P instant).gsap = s.gsap := by
  rcases goToPage_cases s P instant with h | ⟨s1, h, _, _, hg, _⟩ | ⟨pend, h, _⟩
  · rw [h]
  · rw [h, playPage_gsap, hg]
  · rw [h]; rfl

theorem goToPage_pointer (s : State) (P : Int) (instant : Bool) :
    (goToPage s P instant).currentPageId = s.currentPageId ∨
    ((goToPage s P instant).currentPageId = some P ∧ (s.sections P).isSome = true) := by
  rcases goToPage_cases s P instant with h | ⟨s1, h, hc, hP, _⟩ | ⟨pend, h, hP⟩
  · left; rw [h]
  · right; rw [h, playPage_currentPageId]; exact ⟨hc, hP⟩
  · right; rw [h]; exact ⟨rfl, hP⟩

theorem completeTransition_currentPageId (s : State) :
    (completeTransition s).currentPageId = s.currentPageId := by
  unfold completeTransition
  split
  · rfl
  · simp

theorem completeTransition_gsap (s : State) : (completeTransition s).gsap = s.gsap := by
  unfold completeTransition
  split
  · rfl
  · simp

theorem completeTransition_isSome (s : State) (j : Int) :
    ((completeTransition s).sections j).isSome = (s.sections j).isSome := by
  unfold completeTransition
  split
  · rfl
  · simp [modifySection_isSome]

theorem onSvgLoaded_currentPageId (s : State) (q : Int) (doc : Option (Option Svg)) :
    (onSvgLoaded s q doc).currentPageId = s.currentPageId := by
  unfold onSvgLoaded
  split
  · rfl
  · rfl
  · dsimp only
    split <;> simp

theorem onSvgLoaded_gsap (s : State) (q : Int) (doc : Option (Option Svg)) :
    (onSvgLoaded s q doc).gsap = s.gsap := by
  unfold onSvgLoaded
  split
  · rfl
  · rfl
  · dsimp only
    split <;> simp

theorem onSvgLoaded_sections (s : State) (q : Int) (doc : Option (Option Svg)) :
    (onSvgLoaded s q doc).sections = s.sections := by
  unfold onSvgLoaded
  split
  · rfl
  · rfl
  · dsimp only
    split <;> simp

/-- Every event is a `goToPage` call or leaves pointer and sections alone. -/
theorem step_cases (s : State) (e : Event) :
    (∃ P instant, step s e = goToPage s P instant) ∨
    ((step s e).currentPageId = s.currentPageId ∧
      ∀ j, ((step s e).sections j).isSome = (s.sections j).isSome) := by
  cases e with
  | goTo P instant => exact Or.inl ⟨P, instant, rfl⟩
  | sidePrev => exact Or.inl ⟨_, false, rfl⟩
  | sideNext => exact Or.inl ⟨_, false, rfl⟩
  | svgNext q => exact Or.inl ⟨_, false, rfl⟩
  | svgPrev q => exact Or.inl ⟨_, false, rfl⟩
  | navButton index =>
    cases h : SECTION_NAV[index]? with
    | none => right; simp [step, h]
    | some entry => left; exact ⟨entry.2, false, by simp only [step, h]⟩
  | home => exact Or.inl ⟨1, false, rfl⟩
  | deepLink t => exact Or.inl ⟨t, false, rfl⟩
  | transitionDone =>
    right
    exact ⟨completeTransition_currentPageId s, completeTransition_isSome s⟩
  | svgLoaded q doc =>
    right
    refine ⟨onSvgLoaded_currentPageId s q doc, fun j => ?_⟩
    show ((onSvgLoaded s q doc).sections j).isSome = _
    rw [onSvgLoaded_sections]
  | play q =>
    right
    refine ⟨playPage_currentPageId s q, fun j => ?_⟩
    show ((playPage s q).sections j).isSome = _
    rw [playPage_sections]

theorem step_preserves (s : State) (e : Event)
    (hsec : sectionsExactly s) (hptr : validPointer s) :
    sectionsExactly (step s e) ∧ validPointer (step s e) := by
  rcases step_cases s e with ⟨P, instant, h⟩ | ⟨hc, hs⟩
  · rw [h]
    constructor
    · intro i
      rw [goToPage_isSome]
      exact hsec i
    · rcases goToPage_pointer s P instant with hp | ⟨hp, hP⟩
      · unfold validPointer; rw [hp]; exact hptr
      · exact Or.inr ⟨P, hp, (hsec P).mp hP⟩
  · constructor
    · intro i
      rw [hs]
      exact hsec i
    · unfold validPointer; rw [hc]; exact hptr

theorem run_preserves (events : List Event) (s : State)
    (hsec : sectionsExactly s) (hptr : validPointer s) :
    sectionsExactly (run s events) ∧ validPointer (run s events) := by
  induction events generalizing s with
  | nil => exact ⟨hsec, hptr⟩
  | cons e rest ih =>
    have h := step_preserves s e hsec hptr
    exact ih (step s e) h.1 h.2

theorem initialState_sectionsExactly (gsap : Bool) (counter : Option String) (hasNav : Bool) :
    sectionsExactly (initialState gsap counter hasNav true) := by
  intro i
  simp [initialState, TOTAL_PAGES]

theorem goToPage_pageCounter (s : State) (P : Int) (instant : Bool)
    (hsec : (s.sections P).isSome = true) :
    (goToPage s P instant).pageCounter =
      s.pageCounter.map (fun _ => toString P ++ " / 29") := by
  by_cases hpath : s.gsap = false ∨ instant = true ∨ oldSectionOf s = none
  · rw [goToPage_instant_path s P instant hsec hpath, playPage_pageCounter,
      modifySection_pageCounter]
    cases oldSectionOf s with
    | none => rfl
    | some old => simp only [modifySection_pageCounter]; rfl
  · simp only [not_or] at hpath
    obtain ⟨hg, hi, hold⟩ := hpath
    have hg1 : s.gsap = true := by simpa using hg
    have hi1 : instant = false := by simpa using hi
    obtain ⟨old, hold1⟩ := Option.ne_none_iff_exists'.mp hold
    subst hi1
    rw [goToPage_animated_path s P old hsec hg1 hold1]
    rfl

/-! ## Navigation: the timeline cache -/

theorem cachedAt_congr (p : Int) (t n : Nat) (s s1 : State) (hg : s1.gsap = s.gsap)
    (hps : s1.pageState = s.pageState) (hb : s1.built = s.built) (h : cachedAt p t n s) :
    cachedAt p t n s1 := by
  unfold cachedAt at h ⊢
  rw [hg, hps, hb]
  exact h

theorem playPage_cachedAt (p : Int) (t n : Nat) (s : State) (q : Int)
    (h : cachedAt p t n s) : cachedAt p t n (playPage s q) := by
  obtain ⟨hg, ⟨st, hst, ht⟩, hn⟩ := h
  cases hq : s.pageState q with
  | none => rw [playPage_unloaded s q hq]; exact ⟨hg, ⟨st, hst, ht⟩, hn⟩
  | some stq =>
    cases htq : stq.timeline with
    | some tq =>
      rw [playPage_cached s q hg stq tq hq htq]
      exact ⟨hg, ⟨st, hst, ht⟩, hn⟩
    | none =>
      have hqp : p ≠ q := by
        intro hpq
        subst hpq
        rw [hst] at hq
        have := Option.some.inj hq
        subst this
        rw [ht] at htq
        exact Option.noConfusion htq
      rw [playPage_fresh s q hg stq hq htq]
      refine ⟨hg, ⟨st, ?_, ht⟩, ?_⟩
      · simp [setAt, hqp, hst]
      · simp only [List.count_append, hn]
        rw [List.count_singleton]
        simp [hqp.symm]

theorem goToPage_cachedAt (p : Int) (t n : Nat) (s : State) (P : Int) (instant : Bool)
    (h : cachedAt p t n s) : cachedAt p t n (goToPage s P instant) := by
  rcases goToPage_cases s P instant with he | ⟨s1, he, _, _, hg, hps, hb, _, _⟩ | ⟨pend, he, _⟩
  · rw [he]; exact h
  · rw [he]
    exact playPage_cachedAt p t n s1 P (cachedAt_congr p t n s s1 hg hps hb h)
  · rw [he]
    exact cachedAt_congr p t n s _ rfl rfl rfl h

theorem completeTransition_cachedAt (p : Int) (t n : Nat) (s : State)
    (h : cachedAt p t n s) : cachedAt p t n (completeTransition s) := by
  unfold completeTransition
  split
  · exact h
  · apply playPage_cachedAt
    apply cachedAt_congr p t n s _ _ _ _ h <;> simp

theorem onSvgLoaded_cachedAt (p : Int) (t n : Nat) (s : State) (q : Int)
    (doc : Option (Option Svg)) (hq : q ≠ p)
    (h : cachedAt p t n s) : cachedAt p t n (onSvgLoaded s q doc) := by
  unfold onSvgLoaded
  split
  · exact h
  · exact h
  · rename_i svgRoot
    have h1 : cachedAt p t n
        { s with pageState := setAt s.pageState q { svgRoot := svgRoot, timeline := none } } := by
      obtain ⟨hg, ⟨st, hst, ht⟩, hn⟩ := h
      exact ⟨hg, ⟨st, by simp [setAt, hq.symm, hst], ht⟩, hn⟩
    dsimp only
    split
    · exact playPage_cachedAt p t n _ q h1
    · exact h1

theorem step_cachedAt (p : Int) (t n : Nat) (s : State) (e : Event)
    (he : e.loads p = false) (h : cachedAt p t n s) : cachedAt p t n (step s e) := by
  cases e with
  | goTo P instant => exact goToPage_cachedAt p t n s P instant h
  | sidePrev => exact goToPage_cachedAt p t n s _ false h
  | sideNext => exact goToPage_cachedAt p t n s _ false h
  | svgNext q => exact goToPage_cachedAt p t n s _ false h
  | svgPrev q => exact goToPage_cachedAt p t n s _ false h
  | navButton index =>
    cases hi : SECTION_NAV[index]? with
    | none => simp only [step, hi]; exact h
    | some entry => simp only [step, hi]; exact goToPage_cachedAt p t n s _ false h
  | home => exact goToPage_cachedAt p t n s 1 false h
  | deepLink target => exact goToPage_cachedAt p t n s target false h
  | transitionDone => exact completeTransition_cachedAt p t n s h
  | svgLoaded q doc =>
    have hq : q ≠ p := by simpa [Event.loads] using he
    exact onSvgLoaded_cachedAt p t n s q doc hq h
  | play q => exact playPage_cachedAt p t n s q h

theorem run_cachedAt (p : Int) (t n : Nat) (events : List Event) (s : State)
    (he : ∀ e ∈ events, e.loads p = false) (h : cachedAt p t n s) :
    cachedAt p t n (run s events) := by
  induction events generalizing s with
  | nil => exact h
  | cons e rest ih =>
    exact ih (step s e) (fun e1 h1 => he e1 (List.mem_cons_of_mem e h1))
      (step_cachedAt p t n s e (he e (List.mem_cons_self e rest)) h)

/-! ## Claims on navigation -/

/-- C1: for every page id `P` whose page section exists (in particular every
`P` in `[1, 29]` of the built document), after `goToPage P`, instant or
animated, with or without the animation engine and from any prior state, the
current-page state equals `P`, and the text of the page counter, when the
document has one, is exactly `P / 29`. -/
theorem goToPage_sets_current_page_and_counter (s : State) (P : Int) (instant : Bool)
    (hsec : (s.sections P).isSome = true) :
    (goToPage s P instant).currentPageId = some P ∧
    (goToPage s P instant).pageCounter =
      s.pageCounter.map (fun _ => toString P ++ " / 29") :=
  ⟨goToPage_currentPageId s P instant hsec, goToPage_pageCounter s P instant hsec⟩

/-- Witness of C1: an animated `goToPage 7` from page 1 of the built document
leaves the pointer at 7 and the counter reading `7 / 29`. -/
theorem goToPage_sets_current_page_and_counter_witness :
    (((goToPage (initialState true (some "") true true) 1 true).sections 7).isSome = true) ∧
    (goToPage (goToPage (initialState true (some "") true true) 1 true) 7 false).currentPageId
      = some 7 ∧
    (goToPage (goToPage (initialState true (some "") true true) 1 true) 7 false).pageCounter
      = some "7 / 29" := by
  have hsec : ((goToPage (initialState true (some "") true true) 1 true).sections 7).isSome
      = true := by
    rw [goToPage_isSome]; decide
  have h := goToPage_sets_current_page_and_counter
    (goToPage (initialState true (some "") true true) 1 true) 7 false hsec
  refine ⟨hsec, h.1, ?_⟩
  rw [h.2, goToPage_pageCounter _ 1 true (by decide)]
  decide

/-- C2: with page sections for exactly the ids `1 .. 29`, the current page id
is unset in the initial state and, after any sequence of navigation events
(`goToPage` with an arbitrary target, the side controls, the embedded
next/prev graphics of any page, top-nav buttons, home, deep links, and the
load and engine callbacks), it is unset or an integer in `[1, 29]`; a
`goToPage` call whose target has no page section changes nothing. -/
theorem currentPageId_unset_or_valid (s0 : State) (events : List Event)
    (h0 : s0.currentPageId = none) (hsec : sectionsExactly s0) :
    (∀ gsap counter hasNav hasContainer,
      (initialState gsap counter hasNav hasContainer).currentPageId = none) ∧
    ((run s0 events).currentPageId = none ∨
      ∃ n : Int, (run s0 events).currentPageId = some n ∧ 1 ≤ n ∧ n ≤ 29) ∧
    (∀ (s : State) (target : Int) (instant : Bool),
      s.sections target = none → goToPage s target instant = s) :=
  ⟨fun _ _ _ _ => rfl, (run_preserves events s0 hsec (Or.inl h0)).2,
    fun s target instant h => goToPage_no_section s target instant h⟩

/-- Witness of C2: from the built document, a run that tries pages 0 and 40,
steps back from page 1 and forward past page 29. -/
theorem currentPageId_unset_or_valid_witness :
    (initialState true none true true).currentPageId = none ∧
    sectionsExactly (initialState true none true true) ∧
    validPointer (run (initialState true none true true)
      [.goTo 0 false, .goTo 1 true, .sidePrev, .goTo 40 false, .goTo 29 false,
       .transitionDone, .sideNext, .svgNext 29, .navButton 3]) :=
  ⟨rfl, initialState_sectionsExactly true none true,
    (currentPageId_unset_or_valid (initialState true none true true)
      [.goTo 0 false, .goTo 1 true, .sidePrev, .goTo 40 false, .goTo 29 false,
       .transitionDone, .sideNext, .svgNext 29, .navButton 3]
      rfl (initialState_sectionsExactly true none true)).2.1⟩

/-- C4: when the animation engine is unavailable, for every target page `P`
that has a page section and every prior state, `goToPage P` ends with the
section of `P` marked active at opacity 1, the section of the previous
current page (when it is another page; page ids are non-zero) unmarked at
opacity 0, and no animation sequence built, restarted or stored: the page
runtime states and the construction log are unchanged. -/
theorem goToPage_without_engine (s : State) (P : Int) (instant : Bool) (sec : PageSection)
    (hg : s.gsap = false) (hsec : s.sections P = some sec) :
    (goToPage s P instant).sections P = some { sec with active := true, opacity := some 1 } ∧
    (∀ (c : Int) (old : PageSection), s.currentPageId = some c → c ≠ 0 → c ≠ P →
      s.sections c = some old →
      (goToPage s P instant).sections c = some { old with active := false, opacity := some 0 }) ∧
    (goToPage s P instant).pageState = s.pageState ∧
    (goToPage s P instant).built = s.built ∧
    (goToPage s P instant).restarted = s.restarted ∧
    ((∀ q st, s.pageState q = some st → st.timeline = none) →
      ∀ q st, (goToPage s P instant).pageState q = some st → st.timeline = none) := by
  have hsome : (s.sections P).isSome = true := by simp [hsec]
  have hpath := goToPage_instant_path s P instant hsome (Or.inl hg)
  rw [playPage_no_engine _ _ (by
    rw [modifySection_gsap]
    cases oldSectionOf s <;> simp [afterBookkeeping, hg])] at hpath
  have hps : (goToPage s P instant).pageState = s.pageState := by
    rw [hpath, modifySection_pageState]
    cases oldSectionOf s <;> simp [afterBookkeeping]
  refine ⟨?_, ?_, hps, ?_, ?_, ?_⟩
  · rw [hpath]
    cases hold : oldSectionOf s with
    | none =>
      rw [modifySection_sections_same _ P _ sec (by simpa [afterBookkeeping] using hsec)]
    | some old =>
      dsimp only
      by_cases hop : old = P
      · subst hop
        rw [modifySection_sections_same _ old _ _
          (modifySection_sections_same _ old _ sec (by simpa [afterBookkeeping] using hsec))]
      · rw [modifySection_sections_same _ P _ sec (by
          rw [modifySection_sections_other _ old _ P (fun h => hop h.symm)]
          simpa [afterBookkeeping] using hsec)]
  · intro c old hc hc0 hcP hcsec
    have hold : oldSectionOf s = some c := by
      unfold oldSectionOf
      rw [hc]
      simp [hc0, hcsec]
    rw [hpath, hold]
    dsimp only
    rw [modifySection_sections_other _ P _ c hcP]
    exact modifySection_sections_same _ c _ old (by simpa [afterBookkeeping] using hcsec)
  · rw [hpath, modifySection_built]
    cases oldSectionOf s <;> simp [afterBookkeeping]
  · rw [hpath, modifySection_restarted]
    cases oldSectionOf s <;> simp [afterBookkeeping]
  · intro h q st hq
    rw [hps] at hq
    exact h q st hq

/-- Witness of C4: without the engine, on page 1 of the built document,
`goToPage 5` shows the section of page 5 and hides the section of page 1. -/
theorem goToPage_without_engine_witness :
    (goToPage (initialState false (some "") true true) 1 true).gsap = false ∧
    (goToPage (initialState false (some "") true true) 1 true).sections 5 =
      some { active := false, opacity := none, hidden := false, xPercent := 0 } ∧
    (goToPage (goToPage (initialState false (some "") true true) 1 true) 5 false).sections 5 =
      some { active := true, opacity := some 1, hidden := false, xPercent := 0 } ∧
    (goToPage (goToPage (initialState false (some "") true true) 1 true) 5 false).sections 1 =
      some { active := false, opacity := some 0, hidden := false, xPercent := 0 } ∧
    (goToPage (goToPage (initialState false (some "") true true) 1 true) 5 false).built = [] := by
  have hg : (goToPage (initialState false (some "") true true) 1 true).gsap = false := by
    rw [goToPage_gsap]; rfl
  have h5 : (goToPage (initialState false (some "") true true) 1 true).sections 5 =
      some { active := false, opacity := none, hidden := false, xPercent := 0 } := by
    decide
  have h := goToPage_without_engine
    (goToPage (initialState false (some "") true true) 1 true) 5 false _ hg h5
  refine ⟨hg, h5, h.1, ?_, ?_⟩
  · exact h.2.1 1 { active := true, opacity := some 1, hidden := false, xPercent := 0 }
      (by decide) (by decide) (by decide) (by decide)
  · rw [h.2.2.2.1]; decide

/-- C3: with the animation engine present, for a page `p` whose content has
loaded and has not been played yet, the first `playPage p` constructs the
timeline (one entry in the construction log) and restarts it; after any
further events that do not load the content of `p` again (visits to `p` or to
other pages, transitions completing, other pages loading), the page still
holds that same timeline, exactly one construction has happened for `p`, and
a later `playPage p` constructs nothing and restarts the cached timeline. -/
theorem timeline_built_exactly_once (s : State) (p : Int) (st : PageRuntime)
    (events : List Event)
    (hg : s.gsap = true) (hloaded : s.pageState p = some st) (hfirst : st.timeline = none)
    (hev : ∀ e ∈ events, e.loads p = false) :
    (playPage s p).built = s.built ++ [p] ∧
    (playPage s p).restarted = s.restarted ++ [s.built.length] ∧
    (∃ st1, (run (playPage s p) events).pageState p = some st1 ∧
      st1.timeline = some s.built.length) ∧
    (run (playPage s p) events).built.count p = s.built.count p + 1 ∧
    (playPage (run (playPage s p) events) p).built = (run (playPage s p) events).built ∧
    (playPage (run (playPage s p) events) p).restarted =
      (run (playPage s p) events).restarted ++ [s.built.length] ∧
    (playPage (run (playPage s p) events) p).pageState =
      (run (playPage s p) events).pageState := by
  have hfresh := playPage_fresh s p hg st hloaded hfirst
  have hc0 : cachedAt p s.built.length (s.built.count p + 1) (playPage s p) := by
    rw [hfresh]
    refine ⟨hg, ⟨{ st with timeline := some s.built.length }, by simp [setAt], rfl⟩, ?_⟩
    simp [List.count_append]
  have hc := run_cachedAt p _ _ events _ hev hc0
  obtain ⟨hg2, ⟨st1, hst1, ht1⟩, hn⟩ := hc
  have hlater := playPage_cached _ p hg2 st1 _ hst1 ht1
  refine ⟨by rw [hfresh], by rw [hfresh], ⟨st1, hst1, ht1⟩, hn, ?_, ?_, ?_⟩
  · rw [hlater]
  · rw [hlater]
  · rw [hlater]

/-- Witness of C3: page 2 loads while page 1 is shown; it is then visited
three times, by a top-nav style call, by the side control and by a direct
replay. -/
theorem timeline_built_exactly_once_witness :
    (run (playPage (onSvgLoaded (goToPage (initialState true none true true) 1 true) 2
        (some (some { viewBox := none, elements := [] }))) 2)
      [.goTo 2 false, .transitionDone, .goTo 1 false, .transitionDone, .sideNext,
       .transitionDone, .play 2]).built.count 2 =
    (onSvgLoaded (goToPage (initialState true none true true) 1 true) 2
        (some (some { viewBox := none, elements := [] }))).built.count 2 + 1 :=
  (timeline_built_exactly_once
    (onSvgLoaded (goToPage (initialState true none true true) 1 true) 2
      (some (some { viewBox := none, elements := [] }))) 2
    { svgRoot := { viewBox := none, elements := [] }, timeline := none }
    [.goTo 2 false, .transitionDone, .goTo 1 false, .transitionDone, .sideNext,
     .transitionDone, .play 2]
    (by rw [onSvgLoaded_gsap, goToPage_gsap]; rfl)
    (by simp [onSvgLoaded, goToPage_currentPageId, goToPage_gsap, setAt, initialState,
      TOTAL_PAGES])
    rfl
    (by simp [Event.loads])).2.2.2.1

/-! ## Geometry classifier: lemmas -/

theorem getBBoxSafe_eq (el : Element) : getBBoxSafe el = el.getBBox := by
  unfold getBBoxSafe; cases el.getBBox <;> rfl

theorem getPathLength_eq (el : Element) : getPathLength el = el.getTotalLength := by
  unfold getPathLength; cases el.getTotalLength <;> rfl

theorem splitShapes_foldl (fullArea : ℚ) (shapes : List Element) (acc : ShapeSplit) :
    (shapes.foldl (splitStep fullArea) acc).bigShapes
      = acc.bigShapes ++ shapes.filter (isBigShape fullArea) ∧
    (shapes.foldl (splitStep fullArea) acc).smallShapes
      = acc.smallShapes ++ shapes.filter (isSmallShape fullArea) := by
  induction shapes generalizing acc with
  | nil => simp
  | cons el rest ih =>
    rw [List.foldl_cons]
    obtain ⟨h1, h2⟩ := ih (splitStep fullArea acc el)
    rw [h1, h2]
    unfold splitStep isBigShape isSmallShape
    cases hb : getBBoxSafe el with
    | none => simp [List.filter_cons, hb]
    | some box =>
      by_cases hbig : box.width * box.height > fullArea * (5 / 100)
      · simp [List.filter_cons, hb, hbig]
      · have hle : box.width * box.height ≤ fullArea * (5 / 100) := not_lt.mp hbig
        simp [List.filter_cons, hb, hbig, hle]

theorem splitShapesByArea_bigShapes (svg : Svg) (shapes : List Element) :
    (splitShapesByArea svg shapes).bigShapes
      = shapes.filter (isBigShape ((getSvgSize svg).1 * (getSvgSize svg).2)) := by
  unfold splitShapesByArea
  simpa using (splitShapes_foldl _ shapes { bigShapes := [], smallShapes := [] }).1

theorem splitShapesByArea_smallShapes (svg : Svg) (shapes : List Element) :
    (splitShapesByArea svg shapes).smallShapes
      = shapes.filter (isSmallShape ((getSvgSize svg).1 * (getSvgSize svg).2)) := by
  unfold splitShapesByArea
  simpa using (splitShapes_foldl _ shapes { bigShapes := [], smallShapes := [] }).2

theorem count_filter_of_neg (p : Element → Bool) (l : List Element) (a : Element)
    (h : p a = false) : (l.filter p).count a = 0 := by
  apply List.count_eq_zero_of_not_mem
  intro hmem
  have := (List.mem_filter.mp hmem).2
  rw [h] at this
  exact Bool.noConfusion this

/-! ## Claims on the geometry classifier -/

/-- C5: `splitShapesByArea` partitions the shapes.  A shape whose bounding box
can be computed is in `bigShapes` exactly when width*height of the box exceeds
5% of the page area, and in `smallShapes` exactly when it does not, so it is
in exactly one of the two, as often as it occurs among the shapes; the page
area is width*height of the view box when both sides are non-zero and
1280*768 otherwise; a 40 by 10 box on a page of area 100000 is small. -/
theorem splitShapesByArea_partitions (svg : Svg) (shapes : List Element) (el : Element)
    (box : BBox) (hmem : el ∈ shapes) (hbox : el.getBBox = some box) :
    (el ∈ (splitShapesByArea svg shapes).bigShapes ↔
      box.width * box.height > (getSvgSize svg).1 * (getSvgSize svg).2 * (5 / 100)) ∧
    (el ∈ (splitShapesByArea svg shapes).smallShapes ↔
      ¬ box.width * box.height > (getSvgSize svg).1 * (getSvgSize svg).2 * (5 / 100)) ∧
    ((splitShapesByArea svg shapes).bigShapes.count el +
      (splitShapesByArea svg shapes).smallShapes.count el = shapes.count el) ∧
    (svg.viewBox = none → getSvgSize svg = (1280, 768)) ∧
    (∀ w h : ℚ, svg.viewBox = some (w, h) →
      getSvgSize svg = if w ≠ 0 ∧ h ≠ 0 then (w, h) else (1280, 768)) ∧
    (box.width = 40 → box.height = 10 → (getSvgSize svg).1 * (getSvgSize svg).2 = 100000 →
      el ∈ (splitShapesByArea svg shapes).smallShapes ∧
      el ∉ (splitShapesByArea svg shapes).bigShapes) := by
  have hsafe : getBBoxSafe el = some box := by rw [getBBoxSafe_eq, hbox]
  have hbig : el ∈ (splitShapesByArea svg shapes).bigShapes ↔
      box.width * box.height > (getSvgSize svg).1 * (getSvgSize svg).2 * (5 / 100) := by
    rw [splitShapesByArea_bigShapes, List.mem_filter]
    simp [isBigShape, hsafe, hmem]
  have hsmall : el ∈ (splitShapesByArea svg shapes).smallShapes ↔
      ¬ box.width * box.height > (getSvgSize svg).1 * (getSvgSize svg).2 * (5 / 100) := by
    rw [splitShapesByArea_smallShapes, List.mem_filter]
    simp [isSmallShape, hsafe, hmem]
  refine ⟨hbig, hsmall, ?_, ?_, ?_, ?_⟩
  · rw [splitShapesByArea_bigShapes, splitShapesByArea_smallShapes]
    by_cases hb : box.width * box.height > (getSvgSize svg).1 * (getSvgSize svg).2 * (5 / 100)
    · have h1 : isBigShape ((getSvgSize svg).1 * (getSvgSize svg).2) el = true := by
        simp [isBigShape, hsafe, hb]
      have h2 : isSmallShape ((getSvgSize svg).1 * (getSvgSize svg).2) el = false := by
        simp only [isSmallShape, hsafe]
        exact decide_eq_false (not_not_intro hb)
      rw [List.count_filter h1, count_filter_of_neg _ _ _ h2, Nat.add_zero]
    · have h1 : isBigShape ((getSvgSize svg).1 * (getSvgSize svg).2) el = false := by
        simp only [isBigShape, hsafe]
        exact decide_eq_false hb
      have h2 : isSmallShape ((getSvgSize svg).1 * (getSvgSize svg).2) el = true := by
        simp only [isSmallShape, hsafe]
        exact decide_eq_true hb
      rw [List.count_filter h2, count_filter_of_neg _ _ _ h1, Nat.zero_add]
  · intro h; simp [getSvgSize, h]
  · intro w h hv; simp [getSvgSize, hv]
  · intro hw hh harea
    have hnot : ¬ box.width * box.height >
        (getSvgSize svg).1 * (getSvgSize svg).2 * (5 / 100) := by
      rw [hw, hh, harea]; norm_num
    exact ⟨hsmall.mpr hnot, fun hin => hnot (hbig.mp hin)⟩

/-- Witness of C5: on a 400 by 250 page (area 100000) the 40 by 10 rectangle
is small and not big. -/
theorem splitShapesByArea_partitions_witness :
    sampleRect 10 10 40 10 ∈ samplePage.elements ∧
    (getSvgSize samplePage).1 * (getSvgSize samplePage).2 = 100000 ∧
    sampleRect 10 10 40 10 ∈ (splitShapesByArea samplePage samplePage.elements).smallShapes ∧
    sampleRect 10 10 40 10 ∉ (splitShapesByArea samplePage samplePage.elements).bigShapes := by
  have hmem : sampleRect 10 10 40 10 ∈ samplePage.elements := by simp [samplePage]
  have harea : (getSvgSize samplePage).1 * (getSvgSize samplePage).2 = 100000 := by
    norm_num [getSvgSize, samplePage]
  have h := (splitShapesByArea_partitions samplePage samplePage.elements
    (sampleRect 10 10 40 10) { x := 10, y := 10, width := 40, height := 10 }
    hmem rfl).2.2.2.2.2 rfl rfl harea
  exact ⟨hmem, harea, h.1, h.2⟩

theorem mem_detectBars (svg : Svg) (el : Element) :
    el ∈ detectBars svg ↔
      el ∈ svg.elements ∧ (el.tag = Tag.rect ∨ el.tag = Tag.path) ∧
        isBar (getSvgSize svg).1 (getSvgSize svg).2 el = true := by
  unfold detectBars Svg.querySelectorAll
  simp only [List.mem_filter, decide_eq_true_eq, List.mem_cons, List.mem_singleton,
    List.not_mem_nil, or_false]
  tauto

/-- C6, counterexample: on a 10 by 5 page the path with box
`{x: 5, y: 1, width: 0, height: 1}` meets every condition of the claim
(height/width is `Infinity`), yet `detectBars` leaves it out: the code divides
by `box.width || 1`. -/
theorem detectBars_zero_width_counterexample :
    samplePath 5 1 0 1 1 ∈ strokePage.elements ∧
    (samplePath 5 1 0 1 1).tag = Tag.path ∧
    getSvgSize strokePage = (10, 5) ∧
    barAsSpecified 10 5 { x := 5, y := 1, width := 0, height := 1 } = true ∧
    samplePath 5 1 0 1 1 ∉ detectBars strokePage := by
  refine ⟨by simp [strokePage], rfl, by simp [getSvgSize, strokePage], ?_, ?_⟩
  · norm_num [barAsSpecified, jsDivide, JsQuotient.exceeds]
  · rw [mem_detectBars]
    norm_num [isBar, getBBoxSafe, samplePath, getSvgSize, strokePage]

/-- C6, amended: for every rect or path element with a computable bounding
box on a page of size w x h, `detectBars` includes it exactly when
height/h > 0.12, width/w < 0.2, height divided by the width (by 1 when the
width is 0) exceeds 1.5, x lies strictly between 3% and 97% of w and y
strictly between 12% and 97% of h; for a non-zero width this is the test of
the specification, and the box `{x: 500, y: 200, width: 60, height: 200}` on a
1280 by 768 page is a bar. -/
theorem detectBars_iff (svg : Svg) (el : Element) (box : BBox)
    (hmem : el ∈ svg.elements) (htag : el.tag = Tag.rect ∨ el.tag = Tag.path)
    (hbox : el.getBBox = some box) :
    (el ∈ detectBars svg ↔
      box.height / (getSvgSize svg).2 > 12 / 100 ∧
      box.width / (getSvgSize svg).1 < 2 / 10 ∧
      box.height / (if box.width = 0 then 1 else box.width) > 15 / 10 ∧
      box.x > (getSvgSize svg).1 * (3 / 100) ∧ box.x < (getSvgSize svg).1 * (97 / 100) ∧
      box.y > (getSvgSize svg).2 * (12 / 100) ∧ box.y < (getSvgSize svg).2 * (97 / 100)) ∧
    (box.width ≠ 0 →
      (el ∈ detectBars svg ↔
        barAsSpecified (getSvgSize svg).1 (getSvgSize svg).2 box = true)) ∧
    (getSvgSize svg = (1280, 768) →
      box = { x := 500, y := 200, width := 60, height := 200 } → el ∈ detectBars svg) := by
  have hsafe : getBBoxSafe el = some box := by rw [getBBoxSafe_eq, hbox]
  have hiff : el ∈ detectBars svg ↔
      box.height / (getSvgSize svg).2 > 12 / 100 ∧
      box.width / (getSvgSize svg).1 < 2 / 10 ∧
      box.height / (if box.width = 0 then 1 else box.width) > 15 / 10 ∧
      box.x > (getSvgSize svg).1 * (3 / 100) ∧ box.x < (getSvgSize svg).1 * (97 / 100) ∧
      box.y > (getSvgSize svg).2 * (12 / 100) ∧ box.y < (getSvgSize svg).2 * (97 / 100) := by
    rw [mem_detectBars]
    simp only [hmem, htag, true_and, isBar, hsafe, decide_eq_true_eq]
    by_cases hw : box.width = 0
    · simp [hw]
    · simp [hw]
  refine ⟨hiff, ?_, ?_⟩
  · intro hw
    rw [hiff]
    simp only [barAsSpecified, jsDivide, JsQuotient.exceeds, hw, ne_eq, not_false_eq_true,
      if_true, if_false, Bool.and_eq_true, decide_eq_true_eq]
    tauto
  · intro hsize hb
    rw [hiff, hsize, hb]
    norm_num

/-- Witness of C6 (amended): the bar of the specification's example on a page
without view box, hence 1280 by 768. -/
theorem detectBars_iff_witness :
    sampleRect 500 200 60 200 ∈ barPage.elements ∧
    getSvgSize barPage = (1280, 768) ∧
    sampleRect 500 200 60 200 ∈ detectBars barPage := by
  have hmem : sampleRect 500 200 60 200 ∈ barPage.elements := by simp [barPage]
  have hsize : getSvgSize barPage = (1280, 768) := rfl
  exact ⟨hmem, hsize,
    (detectBars_iff barPage (sampleRect 500 200 60 200)
      { x := 500, y := 200, width := 60, height := 200 } hmem (Or.inl rfl) rfl).2.2 hsize rfl⟩

theorem mem_detectCurves (svg : Svg) (el : Element) :
    el ∈ detectCurves svg ↔
      el ∈ svg.elements ∧ (el.tag = Tag.polyline ∨
        (el.tag = Tag.path ∧ isCurvePath (getSvgSize svg).1 (getSvgSize svg).2 el = true)) := by
  unfold detectCurves Svg.querySelectorAll
  simp only [List.mem_append, List.mem_filter, decide_eq_true_eq, List.mem_singleton]
  tauto

theorem isCurvePath_iff (w h : ℚ) (el : Element) :
    isCurvePath w h el = true ↔
      ∃ length box, el.getTotalLength = some length ∧ length ≠ 0 ∧
        min w h * (35 / 100) ≤ length ∧ el.getBBox = some box ∧
        box.width / w > 25 / 100 ∧ box.height / h > 12 / 100 ∧ box.height / h < 8 / 10 ∧
        box.y > h * (2 / 100) ∧ box.y < h * (98 / 100) := by
  unfold isCurvePath
  rw [getPathLength_eq, getBBoxSafe_eq]
  cases hl : el.getTotalLength with
  | none => simp
  | some length =>
    cases hb : el.getBBox with
    | none => simp
    | some box =>
      by_cases h0 : length = 0
      · simp [h0]
      · by_cases hlt : length < min w h * (35 / 100)
        · simp only [h0, hlt, or_true, if_true, Option.some.injEq, ne_eq, exists_and_left,
            exists_eq_left', not_false_eq_true, true_and, Bool.false_eq_true, false_iff,
            not_and, not_exists]
          intro hle
          exact absurd hlt (not_lt.mpr hle)
        · have hle : min w h * (35 / 100) ≤ length := not_lt.mp hlt
          simp only [h0, hlt, or_self, if_false, decide_eq_true_eq, Option.some.injEq, ne_eq,
            exists_and_left, exists_eq_left', not_false_eq_true, true_and, hle]

/-- C7, counterexample: on a 100 by 100 page `detectCurves` returns a polyline
of traced length 1 with a 1 by 1 box, which fails every condition of the
claim, and a path whose traced length is 35, which does not exceed 35% of the
page side. -/
theorem detectCurves_counterexample :
    getSvgSize curvePage = (100, 100) ∧
    samplePolyline 0 0 1 1 1 ∈ detectCurves curvePage ∧
    curveAsSpecified 100 100 1 { x := 0, y := 0, width := 1, height := 1 } = false ∧
    samplePath 10 10 30 20 35 ∈ detectCurves curvePage ∧
    ¬ ((35 : ℚ) > min 100 100 * (35 / 100)) ∧
    curveAsSpecified 100 100 35 { x := 10, y := 10, width := 30, height := 20 } = false := by
  have hsize : getSvgSize curvePage = (100, 100) := by simp [getSvgSize, curvePage]
  refine ⟨hsize, ?_, ?_, ?_, ?_, ?_⟩
  · rw [mem_detectCurves]
    exact ⟨by simp [curvePage], Or.inl rfl⟩
  · norm_num [curveAsSpecified]
  · rw [mem_detectCurves, hsize]
    refine ⟨by simp [curvePage], Or.inr ⟨rfl, ?_⟩⟩
    rw [isCurvePath_iff]
    exact ⟨35, { x := 10, y := 10, width := 30, height := 20 }, rfl, by norm_num,
      by norm_num, rfl, by norm_num, by norm_num, by norm_num, by norm_num, by norm_num⟩
  · norm_num
  · norm_num [curveAsSpecified]

/-- C7, amended: every polyline of the page is among the curves, whatever its
length and box.  A path of a page of size w x h is among the curves exactly
when its traced length is available, non-zero and at least 35% of min(w, h)
and its bounding box is computable with width/w > 0.25, height/h strictly
between 0.12 and 0.8 and y strictly between 2% and 98% of h.  Hence every
path or polyline that meets the conditions of the specification (with a box
of non-negative sides) is included. -/
theorem detectCurves_iff (svg : Svg) (el : Element) (hmem : el ∈ svg.elements) :
    (el.tag = Tag.polyline → el ∈ detectCurves svg) ∧
    (el.tag = Tag.path →
      (el ∈ detectCurves svg ↔
        ∃ length box, el.getTotalLength = some length ∧ length ≠ 0 ∧
          min (getSvgSize svg).1 (getSvgSize svg).2 * (35 / 100) ≤ length ∧
          el.getBBox = some box ∧
          box.width / (getSvgSize svg).1 > 25 / 100 ∧
          box.height / (getSvgSize svg).2 > 12 / 100 ∧
          box.height / (getSvgSize svg).2 < 8 / 10 ∧
          box.y > (getSvgSize svg).2 * (2 / 100) ∧
          box.y < (getSvgSize svg).2 * (98 / 100))) ∧
    (∀ length box, (el.tag = Tag.path ∨ el.tag = Tag.polyline) →
      el.getTotalLength = some length → el.getBBox = some box →
      0 ≤ box.width → 0 ≤ box.height →
      curveAsSpecified (getSvgSize svg).1 (getSvgSize svg).2 length box = true →
      el ∈ detectCurves svg) := by
  have hpath : el.tag = Tag.path →
      (el ∈ detectCurves svg ↔
        ∃ length box, el.getTotalLength = some length ∧ length ≠ 0 ∧
          min (getSvgSize svg).1 (getSvgSize svg).2 * (35 / 100) ≤ length ∧
          el.getBBox = some box ∧
          box.width / (getSvgSize svg).1 > 25 / 100 ∧
          box.height / (getSvgSize svg).2 > 12 / 100 ∧
          box.height / (getSvgSize svg).2 < 8 / 10 ∧
          box.y > (getSvgSize svg).2 * (2 / 100) ∧
          box.y < (getSvgSize svg).2 * (98 / 100)) := by
    intro htag
    rw [mem_detectCurves, isCurvePath_iff]
    simp [hmem, htag]
  have hpoly : el.tag = Tag.polyline → el ∈ detectCurves svg := by
    intro htag
    rw [mem_detectCurves]
    exact ⟨hmem, Or.inl htag⟩
  refine ⟨hpoly, hpath, ?_⟩
  intro length box htag hlen hbox hw0 hh0 hspec
  rcases htag with htag | htag
  · rw [hpath htag]
    simp only [curveAsSpecified, decide_eq_true_eq] at hspec
    obtain ⟨h1, h2, h3, h4, h5, h6⟩ := hspec
    have hwpos : 0 < (getSvgSize svg).1 := by
      by_contra hneg
      have hle : (getSvgSize svg).1 ≤ 0 := not_lt.mp hneg
      have : box.width / (getSvgSize svg).1 ≤ 0 := div_nonpos_of_nonneg_of_nonpos hw0 hle
      linarith
    have hhpos : 0 < (getSvgSize svg).2 := by
      by_contra hneg
      have hle : (getSvgSize svg).2 ≤ 0 := not_lt.mp hneg
      have : box.height / (getSvgSize svg).2 ≤ 0 := div_nonpos_of_nonneg_of_nonpos hh0 hle
      linarith
    have hmin : 0 < min (getSvgSize svg).1 (getSvgSize svg).2 := lt_min hwpos hhpos
    have hlpos : 0 < length := by
      have : 0 < min (getSvgSize svg).1 (getSvgSize svg).2 * (35 / 100) := by positivity
      linarith
    exact ⟨length, box, hlen, ne_of_gt hlpos, le_of_lt h1, hbox, h2, h3, h4, h5, h6⟩
  · exact hpoly htag

/-- Witness of C7 (amended): a path of traced length 300 with a 400 by 200
box on a 1280 by 768 page is a curve. -/
theorem detectCurves_iff_witness :
    samplePath 100 100 400 200 300 ∈ trendPage.elements ∧
    samplePath 100 100 400 200 300 ∈ detectCurves trendPage := by
  have hmem : samplePath 100 100 400 200 300 ∈ trendPage.elements := by simp [trendPage]
  refine ⟨hmem, ?_⟩
  refine (detectCurves_iff trendPage (samplePath 100 100 400 200 300) hmem).2.2 300
    { x := 100, y := 100, width := 400, height := 200 } (Or.inl rfl) rfl rfl
    (by norm_num) (by norm_num) ?_
  have hsize : getSvgSize trendPage = (1280, 768) := rfl
  rw [hsize]
  norm_num [curveAsSpecified]

/-- C8, counterexample: a rectangle whose box is `{0, 0, 0, 0}` is put into
`smallShapes`, and a polyline whose `getBBox` throws is among the curves. -/
theorem degenerate_boxes_counterexample :
    sampleRect 0 0 0 0 ∈ pageShapes degeneratePage ∧
    (sampleRect 0 0 0 0).getBBox = some { x := 0, y := 0, width := 0, height := 0 } ∧
    sampleRect 0 0 0 0 ∈
      (splitShapesByArea degeneratePage (pageShapes degeneratePage)).smallShapes ∧
    detachedPolyline ∈ degeneratePage.elements ∧
    detachedPolyline.getBBox = none ∧
    detachedPolyline ∈ detectCurves degeneratePage := by
  refine ⟨?_, rfl, ?_, by simp [degeneratePage], rfl, ?_⟩
  · simp [pageShapes, Svg.querySelectorAll, degeneratePage, sampleRect]
  · rw [splitShapesByArea_smallShapes, List.mem_filter]
    refine ⟨by simp [pageShapes, Svg.querySelectorAll, degeneratePage, sampleRect], ?_⟩
    have hsize : getSvgSize degeneratePage = (1280, 768) := rfl
    rw [hsize]
    norm_num [isSmallShape, getBBoxSafe, sampleRect]
  · rw [mem_detectCurves]
    exact ⟨by simp [degeneratePage], Or.inl rfl⟩

/-- C8, amended: the classifiers are total (every `getBBox` and
`getTotalLength` call is guarded).  An element whose `getBBox` throws is in
neither `bigShapes` nor `smallShapes` nor the bars, and it is among the curves
exactly when it is a polyline of the page.  An element whose box is computed
with zero width and height is classified like any other box: it is not a bar,
it is among the curves exactly when it is a polyline of the page, and as a
shape of a page of non-negative area it is in `smallShapes` and not in
`bigShapes`. -/
theorem degenerate_boxes_classification (svg : Svg) (shapes : List Element) (el : Element) :
    (el.getBBox = none →
      el ∉ (splitShapesByArea svg shapes).bigShapes ∧
      el ∉ (splitShapesByArea svg shapes).smallShapes ∧
      el ∉ detectBars svg ∧
      (el ∈ detectCurves svg ↔ el ∈ svg.elements ∧ el.tag = Tag.polyline)) ∧
    (∀ box, el.getBBox = some box → box.width = 0 → box.height = 0 →
      el ∉ detectBars svg ∧
      (el ∈ detectCurves svg ↔ el ∈ svg.elements ∧ el.tag = Tag.polyline) ∧
      (el ∈ shapes → 0 ≤ (getSvgSize svg).1 * (getSvgSize svg).2 →
        el ∈ (splitShapesByArea svg shapes).smallShapes ∧
        el ∉ (splitShapesByArea svg shapes).bigShapes)) := by
  constructor
  · intro hnone
    have hsafe : getBBoxSafe el = none := by rw [getBBoxSafe_eq, hnone]
    refine ⟨?_, ?_, ?_, ?_⟩
    · rw [splitShapesByArea_bigShapes, List.mem_filter]
      simp [isBigShape, hsafe]
    · rw [splitShapesByArea_smallShapes, List.mem_filter]
      simp [isSmallShape, hsafe]
    · rw [mem_detectBars]
      simp [isBar, hsafe]
    · rw [mem_detectCurves, isCurvePath_iff]
      simp [hnone]
  · intro box hbox hw hh
    have hsafe : getBBoxSafe el = some box := by rw [getBBoxSafe_eq, hbox]
    refine ⟨?_, ?_, ?_⟩
    · rw [mem_detectBars]
      simp only [isBar, hsafe, hh, zero_div, decide_eq_true_eq]
      intro hin
      have h12 := hin.2.2.1
      norm_num at h12
    · rw [mem_detectCurves, isCurvePath_iff]
      constructor
      · rintro ⟨hmem, hp | ⟨_, length, box1, _, _, _, hb1, h25, _⟩⟩
        · exact ⟨hmem, hp⟩
        · rw [hbox] at hb1
          have hb2 : box = box1 := Option.some.inj hb1
          subst hb2
          rw [hw] at h25
          norm_num at h25
      · rintro ⟨hmem, hp⟩
        exact ⟨hmem, Or.inl hp⟩
    · intro hmem harea
      have hnot : ¬ box.width * box.height >
          (getSvgSize svg).1 * (getSvgSize svg).2 * (5 / 100) := by
        rw [hw, hh]
        simp only [mul_zero, gt_iff_lt, not_lt]
        positivity
      constructor
      · rw [splitShapesByArea_smallShapes, List.mem_filter]
        exact ⟨hmem, by simp only [isSmallShape, hsafe]; exact decide_eq_true hnot⟩
      · rw [splitShapesByArea_bigShapes, List.mem_filter]
        intro hin
        have := hin.2
        simp only [isBigShape, hsafe, decide_eq_true_eq] at this
        exact hnot this

/-- Witness of C8 (amended): the polyline without box is left out of the two
shape sets and of the bars of its page. -/
theorem degenerate_boxes_classification_witness :
    detachedPolyline.getBBox = none ∧
    detachedPolyline ∉
      (splitShapesByArea degeneratePage (pageShapes degeneratePage)).bigShapes ∧
    detachedPolyline ∉
      (splitShapesByArea degeneratePage (pageShapes degeneratePage)).smallShapes ∧
    detachedPolyline ∉ detectBars degeneratePage :=
  ⟨rfl,
    ((degenerate_boxes_classification degeneratePage (pageShapes degeneratePage)
      detachedPolyline).1 rfl).1,
    ((degenerate_boxes_classification degeneratePage (pageShapes degeneratePage)
      detachedPolyline).1 rfl).2.1,
    ((degenerate_boxes_classification degeneratePage (pageShapes degeneratePage)
      detachedPolyline).1 rfl).2.2.1⟩

/-! ## Percentage counters: lemmas -/

theorem isNumberChar_of_isDigit (c : Char) (h : isDigit c = true) : isNumberChar c = true := by
  simp [isNumberChar, h]

theorem not_isNumberChar_of_isJsSpace (c : Char) (h : isJsSpace c = true) :
    isNumberChar c = false := by
  simp only [isJsSpace, Bool.or_eq_true, decide_eq_true_eq, Bool.and_eq_true] at h
  simp only [isNumberChar, isDigit, Bool.or_eq_false_iff, Bool.and_eq_false_imp,
    decide_eq_true_eq, decide_eq_false_iff_not]
  omega

theorem not_isNumberChar_percent (c : Char) (h : c.toNat = 37) : isNumberChar c = false := by
  simp only [isNumberChar, isDigit, Bool.or_eq_false_iff, Bool.and_eq_false_imp,
    decide_eq_true_eq, decide_eq_false_iff_not]
  omega

theorem not_isJsSpace_percent (c : Char) (h : c.toNat = 37) : isJsSpace c = false := by
  simp [isJsSpace, h]

theorem dropWhile_eq_drop_takeWhile (p : Char → Bool) (l : List Char) :
    l.dropWhile p = l.drop (l.takeWhile p).length := by
  induction l with
  | nil => rfl
  | cons a rest ih =>
    by_cases h : p a = true
    · rw [List.dropWhile_cons_of_pos h, List.takeWhile_cons_of_pos h, ih]
      rfl
    · rw [List.dropWhile_cons_of_neg h, List.takeWhile_cons_of_neg h]
      rfl

/-- A match splits the text: what precedes it, group 1, and the rest; group 1
begins with a digit. -/
theorem matchPercent_split (raw : List Char) (index : Nat) (numStr : List Char)
    (h : matchPercent raw = some (index, numStr)) :
    raw = raw.take index ++ numStr ++ raw.drop (index + numStr.length) ∧
    (raw.take index).length = index ∧
    ∃ d rest, numStr = d :: rest ∧ isDigit d = true := by
  induction raw generalizing index with
  | nil => simp [matchPercent] at h
  | cons c cs ih =>
    unfold matchPercent at h
    cases hh : matchPercentHere (c :: cs) with
    | some num =>
      rw [hh] at h
      simp only [Option.some.injEq, Prod.mk.injEq] at h
      obtain ⟨hi, hn⟩ := h
      subst hi; subst hn
      unfold matchPercentHere at hh
      by_cases hd : isDigit c = true
      · simp only [hd, if_true] at hh
        split at hh
        · exact Option.noConfusion hh
        · split at hh
          · have hnum := Option.some.inj hh
            have hhead : (c :: cs).takeWhile isNumberChar
                = c :: cs.takeWhile isNumberChar := by
              rw [List.takeWhile_cons_of_pos (isNumberChar_of_isDigit c hd)]
            refine ⟨?_, rfl, c, cs.takeWhile isNumberChar, ?_, hd⟩
            · rw [← hnum]
              simp only [List.take_zero, List.nil_append, Nat.zero_add]
              conv_lhs => rw [← List.takeWhile_append_dropWhile isNumberChar (c :: cs)]
              congr 1
              exact dropWhile_eq_drop_takeWhile isNumberChar (c :: cs)
            · rw [← hnum, hhead]
          · exact Option.noConfusion hh
      · simp [hd] at hh
    | none =>
      rw [hh] at h
      cases hm : matchPercent cs with
      | none => rw [hm] at h; exact Option.noConfusion h
      | some pr =>
        obtain ⟨i, n⟩ := pr
        rw [hm] at h
        simp only [Option.some.injEq, Prod.mk.injEq] at h
        obtain ⟨hi, hn⟩ := h
        subst hi; subst hn
        obtain ⟨h1, h2, h3⟩ := ih i hm
        refine ⟨?_, ?_, h3⟩
        · rw [Nat.add_right_comm]
          simp only [List.take_succ_cons, List.drop_succ_cons, List.cons_append]
          rw [← h1]
        · simp only [List.take_succ_cons, List.length_cons, h2]

theorem parseDecimal_of_digit_head (d : Char) (xs : List Char) (hd : isDigit d = true) :
    ∃ t, parseDecimal (d :: xs) = some t := by
  have hne : (d :: xs).takeWhile isDigit ≠ [] := by
    rw [List.takeWhile_cons_of_pos hd]
    exact List.cons_ne_nil _ _
  unfold parseDecimal
  simp only [hne, false_and, if_false]
  split
  · exact ⟨_, rfl⟩
  · split
    · exact ⟨_, rfl⟩
    · exact ⟨_, rfl⟩

theorem mathRound_intCast (z : Int) : mathRound (z : ℚ) = z := by
  unfold mathRound
  rw [Int.floor_int_add]
  norm_num

theorem toDigits_of_lt_ten (d : Nat) (h : d < 10) : Nat.toDigits 10 d = [Nat.digitChar d] := by
  interval_cases d <;> rfl

theorem toFixed1_of_nonneg (x : ℚ) (hx : 0 ≤ x) (hlt : x < 10 ^ 21) :
    ∃ a d : Nat, d < 10 ∧ |x - ((a : ℚ) + (d : ℚ) / 10)| ≤ 1 / 20 ∧
      toFixed1 x = Nat.toDigits 10 a ++ ['.', Nat.digitChar d] := by
  have hnot : ¬ x < 0 := not_lt.mpr hx
  have hnot2 : ¬ (10 : ℚ) ^ 21 ≤ x := not_le.mpr hlt
  have hfl : 0 ≤ ⌊x * 10 + 1 / 2⌋ := Int.floor_nonneg.mpr (by positivity)
  refine ⟨(mathRound (x * 10)).toNat / 10, (mathRound (x * 10)).toNat % 10,
    Nat.mod_lt _ (by norm_num), ?_, ?_⟩
  · have hn : (((mathRound (x * 10)).toNat : ℕ) : ℚ) = ((⌊x * 10 + 1 / 2⌋ : Int) : ℚ) := by
      unfold mathRound
      have := Int.toNat_of_nonneg hfl
      exact_mod_cast congrArg (fun z : Int => (z : ℚ)) this
    have hsplit : (((mathRound (x * 10)).toNat / 10 : ℕ) : ℚ)
        + (((mathRound (x * 10)).toNat % 10 : ℕ) : ℚ) / 10
        = (((mathRound (x * 10)).toNat : ℕ) : ℚ) / 10 := by
      have h := Nat.div_add_mod (mathRound (x * 10)).toNat 10
      have h2 : ((10 * ((mathRound (x * 10)).toNat / 10)
          + (mathRound (x * 10)).toNat % 10 : ℕ) : ℚ)
          = (((mathRound (x * 10)).toNat : ℕ) : ℚ) := by rw [h]
      push_cast at h2
      linarith
    rw [hsplit, hn]
    have h1 : ((⌊x * 10 + 1 / 2⌋ : Int) : ℚ) ≤ x * 10 + 1 / 2 := Int.floor_le _
    have h2 : x * 10 + 1 / 2 < ((⌊x * 10 + 1 / 2⌋ : Int) : ℚ) + 1 := Int.lt_floor_add_one _
    rw [abs_le]
    constructor <;> linarith
  · unfold toFixed1
    simp only [hnot, hnot2, if_false, List.nil_append]
    rw [toDigits_of_lt_ten _ (Nat.mod_lt _ (by norm_num))]
    simp

theorem digitsValue_foldl (ds : List Char) (acc : Nat) :
    ds.foldl (fun acc c => 10 * acc + (c.toNat - 48)) acc
      = acc * 10 ^ ds.length + decimalDigits ds := by
  induction ds generalizing acc with
  | nil => simp [decimalDigits]
  | cons d rest ih =>
    rw [List.foldl_cons, ih]
    unfold decimalDigits
    simp only [List.reverse_cons, List.map_append, List.map_cons, List.map_nil,
      Nat.ofDigits_append, Nat.ofDigits_singleton, List.length_map, List.length_reverse,
      List.length_cons]
    ring

theorem digitsValue_eq (ds : List Char) : digitsValue ds = decimalDigits ds := by
  unfold digitsValue
  rw [digitsValue_foldl]
  simp

theorem nearestDouble_nonneg (x v : ℚ) (hx : 0 ≤ x) (h : nearestDouble x = some v) :
    0 ≤ v := by
  unfold nearestDouble at h
  by_cases h0 : x ≤ 0
  · simp only [h0, if_true, Option.some.injEq] at h
    rw [← h]
  · simp only [h0, if_false] at h
    split at h
    · exact Option.noConfusion h
    · simp only [Option.some.injEq] at h
      rw [← h]
      have hp : ∀ e : Int, 0 < pow2 e := by
        intro e
        unfold pow2
        split
        · positivity
        · positivity
      have hq := hp (max (floorLog2 x - 52) (-1074))
      have hm : 0 ≤ x / pow2 (max (floorLog2 x - 52) (-1074)) := div_nonneg hx (le_of_lt hq)
      have hf : 0 ≤ ⌊x / pow2 (max (floorLog2 x - 52) (-1074))⌋ := Int.floor_nonneg.mpr hm
      have hr : (0 : Int) ≤ roundHalfEven (x / pow2 (max (floorLog2 x - 52) (-1074))) := by
        unfold roundHalfEven
        simp only
        split
        · exact hf
        · split
          · omega
          · split
            · exact hf
            · omega
      have hrq : (0 : ℚ) ≤ (roundHalfEven (x / pow2 (max (floorLog2 x - 52) (-1074))) : ℚ) := by
        exact_mod_cast hr
      exact mul_nonneg hrq (le_of_lt hq)

theorem isDigit_toNat (c : Char) (h : isDigit c = true) : 48 ≤ c.toNat ∧ c.toNat ≤ 57 := by
  simpa [isDigit] using h

theorem not_isDigit_of_separator (c : Char) (h : c.toNat = 46 ∨ c.toNat = 44) :
    isDigit c = false := by
  simp only [isDigit, Bool.and_eq_false_imp, decide_eq_true_eq, decide_eq_false_iff_not]
  omega

theorem isNumberChar_of_separator (c : Char) (h : c.toNat = 46 ∨ c.toNat = 44) :
    isNumberChar c = true := by
  simp only [isNumberChar, Bool.or_eq_true, decide_eq_true_eq]
  tauto

theorem wellFormed_cases (n : SourceNumber) (h : n.wellFormed = true) :
    n.intDigits ≠ [] ∧ (∀ c ∈ n.intDigits, isDigit c = true) ∧
    ((n.separator = none ∧ n.fracDigits = [] ∧ n.rest = []) ∨
      ∃ sep, n.separator = some sep ∧ (sep.toNat = 46 ∨ sep.toNat = 44) ∧
        (∀ c ∈ n.fracDigits, isDigit c = true) ∧ (∀ c ∈ n.rest, isNumberChar c = true) ∧
        (∀ c t, n.rest = c :: t → isDigit c = false)) := by
  unfold SourceNumber.wellFormed at h
  simp only [Bool.and_eq_true, Bool.not_eq_true', List.isEmpty_eq_false, List.all_eq_true] at h
  obtain ⟨⟨h1, h2⟩, h3⟩ := h
  refine ⟨h1, h2, ?_⟩
  cases hs : n.separator with
  | none =>
    rw [hs] at h3
    simp only [Bool.and_eq_true, List.isEmpty_iff] at h3
    exact Or.inl ⟨rfl, h3.1, h3.2⟩
  | some sep =>
    rw [hs] at h3
    simp only [Bool.and_eq_true, Bool.or_eq_true, decide_eq_true_eq, List.all_eq_true] at h3
    obtain ⟨⟨⟨h4, h5⟩, h6⟩, h7⟩ := h3
    refine Or.inr ⟨sep, rfl, h4, h5, h6, ?_⟩
    intro c t hr
    rw [hr] at h7
    simpa using h7

theorem replaceFirstComma_digits_append (ds t : List Char)
    (h : ∀ c ∈ ds, isDigit c = true) :
    replaceFirstComma (ds ++ t) = ds ++ replaceFirstComma t := by
  induction ds with
  | nil => rfl
  | cons d rest ih =>
    have hd := isDigit_toNat d (h d (List.mem_cons_self d rest))
    have h44 : ¬ d.toNat = 44 := by omega
    rw [List.cons_append, replaceFirstComma]
    simp only [h44, if_false]
    rw [ih (fun c hc => h c (List.mem_cons_of_mem d hc))]
    rfl

theorem replaceFirstComma_nil_of_digits (ds : List Char) (h : ∀ c ∈ ds, isDigit c = true) :
    replaceFirstComma ds = ds := by
  have := replaceFirstComma_digits_append ds [] h
  simpa [replaceFirstComma] using this

theorem replaceFirstComma_head (rest : List Char)
    (h : ∀ c t, rest = c :: t → isDigit c = false) :
    ∀ c t, replaceFirstComma rest = c :: t → isDigit c = false := by
  intro c t hc
  cases rest with
  | nil => simp [replaceFirstComma] at hc
  | cons a more =>
    rw [replaceFirstComma] at hc
    by_cases ha : a.toNat = 44
    · simp only [ha, if_true, List.cons.injEq] at hc
      rw [← hc.1]
      decide
    · simp only [ha, if_false, List.cons.injEq] at hc
      rw [← hc.1]
      exact h a more rfl

theorem takeWhile_digits_append (ds t : List Char) (h : ∀ c ∈ ds, isDigit c = true)
    (ht : ∀ c u, t = c :: u → isDigit c = false) :
    (ds ++ t).takeWhile isDigit = ds ∧ (ds ++ t).dropWhile isDigit = t := by
  have h1 : t.takeWhile isDigit = [] := by
    cases t with
    | nil => rfl
    | cons c u => simp [ht c u rfl]
  have h2 : t.dropWhile isDigit = t := by
    cases t with
    | nil => rfl
    | cons c u => simp [ht c u rfl]
  constructor
  · rw [List.takeWhile_append_of_pos h, h1, List.append_nil]
  · rw [List.dropWhile_append_of_pos h, h2]

/-- The decimal literal `parseFloat` finds in a number of the text, after the
first comma has become a point. -/
theorem parseDecimal_sourceNumber (n : SourceNumber) (h : n.wellFormed = true) :
    parseDecimal (replaceFirstComma n.text)
      = some (decimalDigits n.intDigits, decimalDigits n.fracDigits, n.fracDigits.length) := by
  obtain ⟨hne, hint, hcases⟩ := wellFormed_cases n h
  unfold SourceNumber.text
  rcases hcases with ⟨hs, hf, _⟩ | ⟨sep, hs, hsep, hfrac, _, hrest⟩
  · rw [hs, hf]
    simp only [List.append_nil]
    rw [replaceFirstComma_nil_of_digits _ hint]
    obtain ⟨h1, h2⟩ := takeWhile_digits_append n.intDigits [] hint (fun c u hcu => by simp at hcu)
    rw [List.append_nil] at h1 h2
    unfold parseDecimal
    simp only [h1, h2, hne, if_false, digitsValue_eq]
    simp [decimalDigits]
  · rw [hs]
    simp only
    rw [replaceFirstComma_digits_append _ _ hint]
    have hkey : ∃ p rest2, replaceFirstComma (sep :: (n.fracDigits ++ n.rest))
        = p :: (n.fracDigits ++ rest2) ∧ p.toNat = 46 ∧
          (∀ c t, rest2 = c :: t → isDigit c = false) := by
      rw [replaceFirstComma]
      by_cases h44 : sep.toNat = 44
      · exact ⟨'.', n.rest, by simp [h44], by decide, hrest⟩
      · have h46 : sep.toNat = 46 := by tauto
        refine ⟨sep, replaceFirstComma n.rest, ?_, h46, replaceFirstComma_head n.rest hrest⟩
        simp only [h44, if_false]
        rw [replaceFirstComma_digits_append _ _ hfrac]
    obtain ⟨p, rest2, hrep, hp, hrest2⟩ := hkey
    rw [hrep]
    have hpd : isDigit p = false := not_isDigit_of_separator p (Or.inl hp)
    obtain ⟨h1, h2⟩ := takeWhile_digits_append n.intDigits (p :: (n.fracDigits ++ rest2)) hint
      (fun c u hcu => by
        simp only [List.cons.injEq] at hcu
        rw [← hcu.1]; exact hpd)
    obtain ⟨h3, _⟩ := takeWhile_digits_append n.fracDigits rest2 hfrac hrest2
    unfold parseDecimal
    simp only [h1, h2, hp, if_true, h3, hne, false_and, if_false, digitsValue_eq]

theorem dropWhile_head (p : Char → Bool) (l : List Char) (c : Char) (t : List Char)
    (h : l.dropWhile p = c :: t) : p c = false := by
  induction l with
  | nil => simp at h
  | cons a rest ih =>
    by_cases ha : p a = true
    · rw [List.dropWhile_cons_of_pos ha] at h
      exact ih h
    · rw [List.dropWhile_cons_of_neg ha] at h
      simp only [List.cons.injEq] at h
      rw [← h.1]
      simpa using ha

theorem mem_of_mem_dropWhile (p : Char → Bool) (l : List Char) (c : Char)
    (h : c ∈ l.dropWhile p) : c ∈ l :=
  (List.dropWhile_sublist p).subset h

theorem sourceNumber_text_shape (n : SourceNumber) (h : n.wellFormed = true) :
    (∃ d t, n.text = d :: t ∧ isDigit d = true) ∧ ∀ c ∈ n.text, isNumberChar c = true := by
  obtain ⟨hne, hint, hcases⟩ := wellFormed_cases n h
  constructor
  · cases hi : n.intDigits with
    | nil => exact absurd hi hne
    | cons d t =>
      refine ⟨d, t ++ (match n.separator with
        | none => []
        | some sep => sep :: (n.fracDigits ++ n.rest)), ?_, ?_⟩
      · unfold SourceNumber.text
        rw [hi]
        rfl
      · exact hint d (by rw [hi]; exact List.mem_cons_self d t)
  · intro c hc
    unfold SourceNumber.text at hc
    rw [List.mem_append] at hc
    rcases hc with hc | hc
    · exact isNumberChar_of_isDigit c (hint c hc)
    · rcases hcases with ⟨hs, _, _⟩ | ⟨sep, hs, hsep, hfrac, hrest, _⟩
      · rw [hs] at hc
        simp at hc
      · rw [hs] at hc
        simp only [List.mem_cons, List.mem_append] at hc
        rcases hc with hc | hc | hc
        · rw [hc]; exact isNumberChar_of_separator sep hsep
        · exact isNumberChar_of_isDigit c (hfrac c hc)
        · exact hrest c hc

/-- Every run of `[\d.,]` that begins with a digit reads as a number. -/
theorem exists_sourceNumber (num : List Char) (d : Char) (t : List Char)
    (hnum : num = d :: t) (hd : isDigit d = true)
    (hall : ∀ c ∈ num, isNumberChar c = true) :
    ∃ m : SourceNumber, m.wellFormed = true ∧ m.text = num := by
  have hsplit := List.takeWhile_append_dropWhile isDigit num
  have hint : ∀ c ∈ num.takeWhile isDigit, isDigit c = true :=
    fun c hc => List.mem_takeWhile_imp hc
  have hne : num.takeWhile isDigit ≠ [] := by
    rw [hnum, List.takeWhile_cons_of_pos hd]
    exact List.cons_ne_nil _ _
  cases hr : num.dropWhile isDigit with
  | nil =>
    refine ⟨⟨num.takeWhile isDigit, none, [], []⟩, ?_, ?_⟩
    · simp only [SourceNumber.wellFormed, Bool.and_eq_true, Bool.not_eq_true',
        List.isEmpty_eq_false, List.all_eq_true, List.isEmpty_nil, and_self, and_true]
      exact ⟨hne, hint⟩
    · simp only [SourceNumber.text, List.append_nil]
      rw [hr, List.append_nil] at hsplit
      exact hsplit
  | cons sep r2 =>
    have hsepd : isDigit sep = false := dropWhile_head isDigit num sep r2 hr
    have hsepmem : sep ∈ num :=
      mem_of_mem_dropWhile isDigit num sep (by rw [hr]; exact List.mem_cons_self sep r2)
    have hsepn := hall sep hsepmem
    have hsep : sep.toNat = 46 ∨ sep.toNat = 44 := by
      simp only [isNumberChar, Bool.or_eq_true, decide_eq_true_eq, hsepd,
        Bool.false_eq_true, false_or] at hsepn
      exact hsepn
    have hr2 : ∀ c ∈ r2, isNumberChar c = true := fun c hc =>
      hall c (mem_of_mem_dropWhile isDigit num c (by rw [hr]; exact List.mem_cons_of_mem sep hc))
    refine ⟨⟨num.takeWhile isDigit, some sep, r2.takeWhile isDigit, r2.dropWhile isDigit⟩,
      ?_, ?_⟩
    · simp only [SourceNumber.wellFormed, Bool.and_eq_true, Bool.not_eq_true',
        List.isEmpty_eq_false, List.all_eq_true, Bool.or_eq_true, decide_eq_true_eq]
      refine ⟨⟨hne, hint⟩, ⟨⟨hsep, fun c hc => List.mem_takeWhile_imp hc⟩,
        fun c hc => hr2 c (mem_of_mem_dropWhile isDigit r2 c hc)⟩, ?_⟩
      cases hrest : r2.dropWhile isDigit with
      | nil => rfl
      | cons c u =>
        simp only [Bool.not_eq_true']
        exact dropWhile_head isDigit r2 c u hrest
    · simp only [SourceNumber.text]
      rw [List.takeWhile_append_dropWhile, ← hr, hsplit]

theorem matchPercentHere_of_run (num ws post : List Char) (p d : Char) (t : List Char)
    (hnum : num = d :: t) (hd : isDigit d = true)
    (hall : ∀ c ∈ num, isNumberChar c = true)
    (hws : ∀ c ∈ ws, isJsSpace c = true) (hp : p.toNat = 37) :
    matchPercentHere (num ++ ws ++ p :: post) = some num := by
  have hstop : (ws ++ p :: post).takeWhile isNumberChar = [] := by
    cases ws with
    | nil => simp [not_isNumberChar_percent p hp]
    | cons w rest =>
      simp [not_isNumberChar_of_isJsSpace w (hws w (List.mem_cons_self w rest))]
  have hstop2 : (ws ++ p :: post).dropWhile isNumberChar = ws ++ p :: post := by
    cases ws with
    | nil => simp [not_isNumberChar_percent p hp]
    | cons w rest =>
      simp [not_isNumberChar_of_isJsSpace w (hws w (List.mem_cons_self w rest))]
  have htake : (num ++ ws ++ p :: post).takeWhile isNumberChar = num := by
    rw [List.append_assoc, List.takeWhile_append_of_pos hall, hstop, List.append_nil]
  have hdrop : (num ++ ws ++ p :: post).dropWhile isNumberChar = ws ++ p :: post := by
    rw [List.append_assoc, List.dropWhile_append_of_pos hall, hstop2]
  have hdrop2 : (ws ++ p :: post).dropWhile isJsSpace = p :: post := by
    rw [List.dropWhile_append_of_pos hws]
    simp [not_isJsSpace_percent p hp]
  have hshape : num ++ ws ++ p :: post = d :: (t ++ ws ++ p :: post) := by
    rw [hnum]; simp
  unfold matchPercentHere
  rw [htake, hdrop, hdrop2]
  rw [hshape]
  simp [hd, hp]

theorem matchPercent_exists (before cs num : List Char)
    (hhere : matchPercentHere cs = some num) :
    ∃ index numStr, matchPercent (before ++ cs) = some (index, numStr) := by
  induction before with
  | nil =>
    cases cs with
    | nil => simp [matchPercentHere] at hhere
    | cons c rest => exact ⟨0, num, by rw [List.nil_append, matchPercent, hhere]⟩
  | cons c rest ih =>
    obtain ⟨index, numStr, hm⟩ := ih
    cases hh : matchPercentHere (c :: (rest ++ cs)) with
    | some n2 => exact ⟨0, n2, by rw [List.cons_append, matchPercent, hh]⟩
    | none => exact ⟨index + 1, numStr, by rw [List.cons_append, matchPercent, hh, hm]⟩

theorem matchPercentHere_nondigit (c : Char) (cs : List Char) (h : isDigit c = false) :
    matchPercentHere (c :: cs) = none := by
  unfold matchPercentHere
  simp [h]

/-- When no digit stands before it, the match begins where the number begins. -/
theorem matchPercent_skip (before cs num : List Char)
    (hb : ∀ c ∈ before, isDigit c = false) (hhere : matchPercentHere cs = some num) :
    matchPercent (before ++ cs) = some (before.length, num) := by
  induction before with
  | nil =>
    cases cs with
    | nil => simp [matchPercentHere] at hhere
    | cons c rest => rw [List.nil_append, matchPercent, hhere]; rfl
  | cons c rest ih =>
    rw [List.cons_append, matchPercent,
      matchPercentHere_nondigit c _ (hb c (List.mem_cons_self c rest)),
      ih (fun x hx => hb x (List.mem_cons_of_mem c hx))]
    rfl

theorem matchPercent_numberChars (raw : List Char) (index : Nat) (numStr : List Char)
    (h : matchPercent raw = some (index, numStr)) :
    ∀ c ∈ numStr, isNumberChar c = true := by
  induction raw generalizing index with
  | nil => simp [matchPercent] at h
  | cons a cs ih =>
    unfold matchPercent at h
    cases hh : matchPercentHere (a :: cs) with
    | some num =>
      rw [hh] at h
      simp only [Option.some.injEq, Prod.mk.injEq] at h
      obtain ⟨_, hn⟩ := h
      subst hn
      unfold matchPercentHere at hh
      by_cases hd : isDigit a = true
      · simp only [hd, if_true] at hh
        split at hh
        · exact Option.noConfusion hh
        · split at hh
          · have hnum := Option.some.inj hh
            intro c hc
            rw [← hnum] at hc
            exact List.mem_takeWhile_imp hc
          · exact Option.noConfusion hh
      · simp [hd] at hh
    | none =>
      rw [hh] at h
      cases hm : matchPercent cs with
      | none => rw [hm] at h; exact Option.noConfusion h
      | some pr =>
        obtain ⟨i, n⟩ := pr
        rw [hm] at h
        simp only [Option.some.injEq, Prod.mk.injEq] at h
        obtain ⟨_, hn⟩ := h
        subst hn
        exact ih i hm

/-- The outcome for a text whose match is the number `m`. -/
theorem rollOutcome_of_match (textContent : String) (index : Nat) (m : SourceNumber)
    (hwf : m.wellFormed = true)
    (hm : matchPercent (jsTrim textContent.toList) = some (index, m.text)) :
    rollOutcome textContent =
      expectedOutcome m.value ((jsTrim textContent.toList).drop (index + m.text.length)) := by
  unfold rollOutcome
  simp only [hm]
  unfold parseFloat
  rw [parseDecimal_sourceNumber m hwf]
  unfold expectedOutcome SourceNumber.value
  simp only
  cases nearestDouble ((decimalDigits m.intDigits : ℚ)
      + (decimalDigits m.fracDigits : ℚ) / 10 ^ m.fracDigits.length) with
  | none => rfl
  | some v => rfl

theorem natToString_small (x : Nat) (h : x < 2 ^ 53) : natToString x = Nat.toDigits 10 x := by
  rw [natToString, if_pos h]

theorem natToString_digits (x : Nat) (h : x < 10 ^ 21) :
    ∃ c e, natToString x = Nat.toDigits 10 c ++ List.replicate e '0' := by
  by_cases hs : x < 2 ^ 53
  · exact ⟨x, 0, by rw [natToString_small x hs]; simp⟩
  · refine ⟨(shortestDigits x).1, (shortestDigits x).2, ?_⟩
    rw [natToString, if_neg hs]
    dsimp only
    rw [if_pos h]

theorem expectedOutcome_ne_noTween (value : ℚ) (suffix : List Char) :
    expectedOutcome value suffix ≠ RollOutcome.noTween := by
  unfold expectedOutcome
  cases nearestDouble value with
  | none => exact fun h => RollOutcome.noConfusion h
  | some v => exact fun h => RollOutcome.noConfusion h

theorem rollOfText_of_expected (textContent : String) (value : ℚ) (suffix : List Char)
    (r : NumberRoll) (hout : rollOutcome textContent = expectedOutcome value suffix)
    (hr : rollOfText textContent = some r) :
    nearestDouble value = some r.finalValue ∧ r.startValue = 0 ∧ r.suffix = suffix := by
  unfold rollOfText at hr
  rw [hout] at hr
  unfold expectedOutcome at hr
  cases hv : nearestDouble value with
  | none => rw [hv] at hr; exact Option.noConfusion hr
  | some v =>
    rw [hv] at hr
    simp only [Option.some.injEq] at hr
    rw [← hr]
    exact ⟨rfl, rfl, rfl⟩

theorem sourceNumber_value_nonneg (m : SourceNumber) : 0 ≤ m.value := by
  unfold SourceNumber.value
  positivity

theorem onUpdate_whole (r : NumberRoll) (h0 : 0 ≤ r.finalValue)
    (hwhole : r.finalValue = ⌊r.finalValue⌋) :
    r.onUpdate r.finalValue = String.mk (natToString ⌊r.finalValue⌋.toNat ++ r.suffix) := by
  have hfl : 0 ≤ ⌊r.finalValue⌋ := Int.floor_nonneg.mpr h0
  have hround : mathRound r.finalValue = ⌊r.finalValue⌋ := by
    have h := mathRound_intCast ⌊r.finalValue⌋
    rw [← hwhole] at h
    exact h
  unfold NumberRoll.onUpdate
  simp only [← hwhole, if_true, hround, intToString, not_lt.mpr hfl, if_false]

theorem onUpdate_fraction (r : NumberRoll) (h0 : 0 ≤ r.finalValue)
    (hfrac : r.finalValue ≠ ⌊r.finalValue⌋) (hlt : r.finalValue < 10 ^ 21) :
    ∃ a d : Nat, d < 10 ∧ |r.finalValue - ((a : ℚ) + (d : ℚ) / 10)| ≤ 1 / 20 ∧
      r.onUpdate r.finalValue
        = String.mk (Nat.toDigits 10 a ++ ['.', Nat.digitChar d] ++ r.suffix) := by
  obtain ⟨a, dd, hdd, habs, hfix⟩ := toFixed1_of_nonneg r.finalValue h0 hlt
  refine ⟨a, dd, hdd, habs, ?_⟩
  unfold NumberRoll.onUpdate
  have hw : ¬ r.finalValue = ((⌊r.finalValue⌋ : Int) : ℚ) := hfrac
  simp only [hw, if_false, hfix]

/-- The roll-up on sample texts: end value and text at completion. -/
theorem rollOfText_examples :
    (rollOfText "87%").map (fun r => (r.startValue, r.finalValue, r.onUpdate r.finalValue))
      = some (0, 87, "87%") ∧
    (rollOfText "12.5%").map (fun r => (r.startValue, r.finalValue, r.onUpdate r.finalValue))
      = some (0, 25 / 2, "12.5%") ∧
    (rollOfText "7,5%").map (fun r => (r.startValue, r.finalValue, r.onUpdate r.finalValue))
      = some (0, 15 / 2, "7.5%") ∧
    (rollOfText "12.35%").map (fun r => (r.finalValue, r.onUpdate r.finalValue))
      = some (6952431924753203 / 562949953421312, "12.3%") ∧
    (rollOfText "9007199254740993%").map (fun r => (r.finalValue, r.onUpdate r.finalValue))
      = some (9007199254740992, "9007199254740992%") := by
  decide!

/-- C9, counterexample: the source `1000000000000000000000%` holds the whole
number 10^21; the counter runs to 10^21 and the text written at completion is
`1e+21%`, exponent notation and not an integer.  (Likewise the source
`0.99999999999999999%`, whose number is not whole, parses to the double 1 and
completes as `1%`, without a decimal.) -/
theorem percentage_roll_exponent_counterexample :
    (rollOfText "1000000000000000000000%").map (fun r => (r.startValue, r.finalValue))
      = some (0, 10 ^ 21) ∧
    (rollOfText "1000000000000000000000%").map (fun r => r.onUpdate r.finalValue)
      = some "1e+21%" ∧
    (rollOfText "0.99999999999999999%").map (fun r => (r.finalValue, r.onUpdate r.finalValue))
      = some (1, "1%") := by
  decide!

/-- C9, amended: for every text node whose trimmed content contains a number
followed by optional white space and `%`, the roll-up adds a counter for a
number of that text (the one given, when no digit stands before it); the
counter starts at 0 and ends at the parsed value, which is the double nearest
to the number read with its first separator as the decimal point (the
counter ends at `Infinity` when that overflows); the suffix is the trimmed
text after the number.  When the parsed value is below 10^21 the text written
when the counter reaches it is, followed by the suffix, the value as a string
of digits when the parsed value is whole (its own digits below 2^53) and
otherwise the nearest number with exactly one decimal.  Source `87%`
completes as `87%` and `12.5%` as `12.5%`; `7,5%` completes as `7.5%` and
`12.35%`, whose double lies below 12.35, as `12.3%`. -/
theorem percentage_roll_completes (svg : Svg) (node : Element)
    (before ws post : List Char) (number : SourceNumber)
    (hnode : node ∈ svg.elements) (htag : node.tag = Tag.text)
    (hraw : jsTrim node.textContent.toList = before ++ (number.text ++ ws ++ '%' :: post))
    (hwf : number.wellFormed = true) (hws : ∀ c ∈ ws, isJsSpace c = true) :
    (∃ (index : Nat) (m : SourceNumber), m.wellFormed = true ∧
      matchPercent (jsTrim node.textContent.toList) = some (index, m.text) ∧
      jsTrim node.textContent.toList
        = (jsTrim node.textContent.toList).take index ++ m.text
          ++ (jsTrim node.textContent.toList).drop (index + m.text.length) ∧
      rollOutcome node.textContent
        = expectedOutcome m.value
            ((jsTrim node.textContent.toList).drop (index + m.text.length)) ∧
      (node, rollOutcome node.textContent) ∈ addPercentageNumberRolls svg) ∧
    ((∀ c ∈ before, isDigit c = false) →
      matchPercent (jsTrim node.textContent.toList) = some (before.length, number.text) ∧
      rollOutcome node.textContent = expectedOutcome number.value (ws ++ '%' :: post)) ∧
    (∀ r, rollOfText node.textContent = some r →
      r.startValue = 0 ∧ 0 ≤ r.finalValue ∧
      (r.finalValue = ⌊r.finalValue⌋ →
        r.onUpdate r.finalValue
          = String.mk (natToString ⌊r.finalValue⌋.toNat ++ r.suffix) ∧
        (r.finalValue < 2 ^ 53 →
          natToString ⌊r.finalValue⌋.toNat = Nat.toDigits 10 ⌊r.finalValue⌋.toNat) ∧
        (r.finalValue < 10 ^ 21 →
          ∃ c e, natToString ⌊r.finalValue⌋.toNat
            = Nat.toDigits 10 c ++ List.replicate e '0')) ∧
      (r.finalValue ≠ ⌊r.finalValue⌋ → r.finalValue < 10 ^ 21 →
        ∃ a d : Nat, d < 10 ∧ |r.finalValue - ((a : ℚ) + (d : ℚ) / 10)| ≤ 1 / 20 ∧
          r.onUpdate r.finalValue
            = String.mk (Nat.toDigits 10 a ++ ['.', Nat.digitChar d] ++ r.suffix))) ∧
    ((rollOfText "87%").map (fun r => (r.startValue, r.finalValue, r.onUpdate r.finalValue))
        = some (0, 87, "87%") ∧
      (rollOfText "12.5%").map (fun r => (r.startValue, r.finalValue, r.onUpdate r.finalValue))
        = some (0, 25 / 2, "12.5%") ∧
      (rollOfText "7,5%").map (fun r => (r.startValue, r.finalValue, r.onUpdate r.finalValue))
        = some (0, 15 / 2, "7.5%") ∧
      (rollOfText "12.35%").map (fun r => r.onUpdate r.finalValue) = some "12.3%") := by
  obtain ⟨⟨d, t, hshape, hd⟩, hall⟩ := sourceNumber_text_shape number hwf
  have hhere : matchPercentHere (number.text ++ ws ++ '%' :: post) = some number.text :=
    matchPercentHere_of_run number.text ws post '%' d t hshape hd hall hws rfl
  have hgen : ∃ (index : Nat) (m : SourceNumber), m.wellFormed = true ∧
      matchPercent (jsTrim node.textContent.toList) = some (index, m.text) ∧
      jsTrim node.textContent.toList
        = (jsTrim node.textContent.toList).take index ++ m.text
          ++ (jsTrim node.textContent.toList).drop (index + m.text.length) ∧
      rollOutcome node.textContent
        = expectedOutcome m.value
            ((jsTrim node.textContent.toList).drop (index + m.text.length)) ∧
      (node, rollOutcome node.textContent) ∈ addPercentageNumberRolls svg := by
    obtain ⟨index, numStr, hm⟩ := matchPercent_exists before _ _ hhere
    rw [← hraw] at hm
    obtain ⟨hsplit, _, d2, t2, hnum2, hd2⟩ := matchPercent_split _ index numStr hm
    obtain ⟨m, hmwf, hmtext⟩ := exists_sourceNumber numStr d2 t2 hnum2 hd2
      (matchPercent_numberChars _ index numStr hm)
    rw [← hmtext] at hm hsplit
    have hout := rollOutcome_of_match node.textContent index m hmwf hm
    refine ⟨index, m, hmwf, hm, hsplit, hout, ?_⟩
    unfold addPercentageNumberRolls Svg.querySelectorAll
    rw [List.mem_filterMap]
    refine ⟨node, List.mem_filter.mpr ⟨hnode, by simp [htag]⟩, ?_⟩
    have hne := expectedOutcome_ne_noTween m.value
      ((jsTrim node.textContent.toList).drop (index + m.text.length))
    rw [← hout] at hne
    cases hro : rollOutcome node.textContent with
    | noTween => exact absurd hro hne
    | finiteTween roll => rfl
    | infiniteTween suffix => rfl
  refine ⟨hgen, ?_, ?_, ?_⟩
  · intro hb
    have hm : matchPercent (jsTrim node.textContent.toList)
        = some (before.length, number.text) := by
      rw [hraw]
      exact matchPercent_skip before _ _ hb hhere
    refine ⟨hm, ?_⟩
    rw [rollOutcome_of_match node.textContent before.length number hwf hm, hraw]
    have hre : before ++ (number.text ++ ws ++ '%' :: post)
        = (before ++ number.text) ++ (ws ++ '%' :: post) := by
      simp only [List.append_assoc]
    rw [hre, ← List.length_append, List.drop_left]
  · intro r hr
    obtain ⟨index, m, _, _, _, hout, _⟩ := hgen
    obtain ⟨hv, hstart, _⟩ := rollOfText_of_expected _ _ _ r hout hr
    have h0 : 0 ≤ r.finalValue :=
      nearestDouble_nonneg m.value r.finalValue (sourceNumber_value_nonneg m) hv
    refine ⟨hstart, h0, ?_, ?_⟩
    · intro hwhole
      refine ⟨onUpdate_whole r h0 hwhole, ?_, ?_⟩
      · intro hlt
        apply natToString_small
        have h1 : ((⌊r.finalValue⌋.toNat : ℕ) : ℚ) < ((2 ^ 53 : ℕ) : ℚ) := by
          have h2 : ((⌊r.finalValue⌋.toNat : ℕ) : ℚ) = r.finalValue := by
            have h3 := Int.toNat_of_nonneg (Int.floor_nonneg.mpr h0)
            have h4 : ((⌊r.finalValue⌋.toNat : ℕ) : ℚ) = ((⌊r.finalValue⌋ : Int) : ℚ) := by
              exact_mod_cast congrArg (fun z : Int => (z : ℚ)) h3
            rw [h4, ← hwhole]
          rw [h2]
          exact_mod_cast hlt
        exact_mod_cast h1
      · intro hlt
        apply natToString_digits
        have h1 : ((⌊r.finalValue⌋.toNat : ℕ) : ℚ) < ((10 ^ 21 : ℕ) : ℚ) := by
          have h2 : ((⌊r.finalValue⌋.toNat : ℕ) : ℚ) = r.finalValue := by
            have h3 := Int.toNat_of_nonneg (Int.floor_nonneg.mpr h0)
            have h4 : ((⌊r.finalValue⌋.toNat : ℕ) : ℚ) = ((⌊r.finalValue⌋ : Int) : ℚ) := by
              exact_mod_cast congrArg (fun z : Int => (z : ℚ)) h3
            rw [h4, ← hwhole]
          rw [h2]
          exact_mod_cast hlt
        exact_mod_cast h1
    · intro hfrac hlt
      exact onUpdate_fraction r h0 hfrac hlt
  · exact ⟨rollOfText_examples.1, rollOfText_examples.2.1, rollOfText_examples.2.2.1, by decide!⟩

/-- Witness of C9 (amended): a page whose only text reads `ca. 7,5 % p.a.`;
the roll-up runs to the double nearest to 7 + 5/10. -/
theorem percentage_roll_completes_witness :
    matchPercent (jsTrim " ca. 7,5 % p.a. ".toList) = some (4, "7,5".toList) ∧
    rollOutcome " ca. 7,5 % p.a. " =
      expectedOutcome
        (SourceNumber.value
          { intDigits := ['7'], separator := some ',', fracDigits := ['5'], rest := [] })
        " % p.a.".toList :=
  ((percentage_roll_completes (textPage " ca. 7,5 % p.a. ") (sampleText " ca. 7,5 % p.a. ")
    "ca. ".toList " ".toList " p.a.".toList
    { intDigits := ['7'], separator := some ',', fracDigits := ['5'], rest := [] }
    (by simp [textPage]) rfl (by decide) (by decide) (by decide)).2.1 (by decide))

/-! ## Citations: lemmas and claim -/

theorem isCitationMarker_iff (raw : List Char) :
    isCitationMarker raw = true ↔
      (raw.length = 1 ∨ raw.length = 2) ∧ ∀ c ∈ raw, isDigit c = true := by
  unfold isCitationMarker
  cases raw with
  | nil => simp
  | cons a rest =>
    cases rest with
    | nil => simp
    | cons b more =>
      cases more with
      | nil => simp
      | cons c tail => simp

theorem mem_enhanceCitations (svg : Svg) (node : Element) (raw : String) :
    (node, raw) ∈ enhanceCitations svg ↔
      node ∈ svg.elements ∧ (node.tag = Tag.text ∨ node.tag = Tag.tspan) ∧
        isCitationMarker (jsTrim node.textContent.toList) = true ∧
        raw = String.mk (jsTrim node.textContent.toList) := by
  unfold enhanceCitations Svg.querySelectorAll
  rw [List.mem_filterMap]
  constructor
  · rintro ⟨a, ha, hsome⟩
    obtain ⟨hmem, htag⟩ := List.mem_filter.mp ha
    by_cases hc : isCitationMarker (jsTrim a.textContent.toList) = true
    · simp only [hc, if_true, Option.some.injEq, Prod.mk.injEq] at hsome
      obtain ⟨h1, h2⟩ := hsome
      subst h1
      exact ⟨hmem, by simpa using htag, hc, h2.symm⟩
    · simp only [hc, if_false, Bool.false_eq_true] at hsome
      exact Option.noConfusion hsome
  · rintro ⟨hmem, htag, hc, hraw⟩
    refine ⟨node, List.mem_filter.mpr ⟨hmem, by simpa using htag⟩, ?_⟩
    simp only [hc, hraw, if_true]

/-- C10: for every text or tspan node of a page, `enhanceCitations` attaches
a citation handler exactly when the trimmed content of the node is one or two
decimal digits, and the handler carries that content as the reference id;
with the overlay elements present, the click opens the overlay (no longer
hidden) with the displayed id equal to that content and with the registered,
non-empty reference text for that id, or with the generic message when no
text is registered; content `3` with the empty reference store shows id `3`
and the generic message. -/
theorem citation_handler_and_overlay (svg : Svg) (node : Element)
    (hnode : node ∈ svg.elements) (htag : node.tag = Tag.text ∨ node.tag = Tag.tspan) :
    ((∃ raw, (node, raw) ∈ enhanceCitations svg) ↔
      ((jsTrim node.textContent.toList).length = 1 ∨
        (jsTrim node.textContent.toList).length = 2) ∧
      ∀ c ∈ jsTrim node.textContent.toList, isDigit c = true) ∧
    (∀ raw, (node, raw) ∈ enhanceCitations svg →
      raw = String.mk (jsTrim node.textContent.toList)) ∧
    (∀ (references : String → Option String) (refId : String) (modal : ModalElement)
        (idText text : String),
      openCitationModal references
          { modal := some modal, idSpan := some idText, textDiv := some text } refId =
        { modal := some { hidden := false, ariaHidden := some "false" }
          idSpan := some refId
          textDiv := some (getReferenceText references refId) }) ∧
    (∀ (references : String → Option String) (refId text : String),
      references refId = some text → text ≠ "" →
      getReferenceText references refId = text) ∧
    (∀ (references : String → Option String) (refId : String),
      references refId = none →
      getReferenceText references refId =
        "Please see the References page in the brochure for full citation details.") ∧
    (String.mk (jsTrim node.textContent.toList) = "3" →
      (node, "3") ∈ enhanceCitations svg ∧
      ∀ (modal : ModalElement) (idText text : String),
        openCitationModal REFERENCES
            { modal := some modal, idSpan := some idText, textDiv := some text } "3" =
          { modal := some { hidden := false, ariaHidden := some "false" }
            idSpan := some "3"
            textDiv := some
              "Please see the References page in the brochure for full citation details." }) := by
  refine ⟨?_, ?_, ?_, ?_, ?_, ?_⟩
  · rw [← isCitationMarker_iff]
    constructor
    · rintro ⟨raw, hraw⟩
      exact ((mem_enhanceCitations svg node raw).mp hraw).2.2.1
    · intro hc
      exact ⟨_, (mem_enhanceCitations svg node _).mpr ⟨hnode, htag, hc, rfl⟩⟩
  · intro raw hraw
    exact ((mem_enhanceCitations svg node raw).mp hraw).2.2.2
  · intro references refId modal idText text
    rfl
  · intro references refId text href htext
    unfold getReferenceText
    rw [href]
    simp [htext]
  · intro references refId href
    unfold getReferenceText
    rw [href]
    rfl
  · intro h3
    have hraw : jsTrim node.textContent.toList = ['3'] := by
      have := congrArg String.toList h3
      simpa using this
    refine ⟨(mem_enhanceCitations svg node "3").mpr ⟨hnode, htag, ?_, h3.symm⟩, ?_⟩
    · rw [hraw]; decide
    · intro modal idText text
      rfl

/-- Witness of C10: a page whose only text is the marker ` 3 `. -/
theorem citation_handler_and_overlay_witness :
    sampleText " 3 " ∈ (textPage " 3 ").elements ∧
    (sampleText " 3 ", "3") ∈ enhanceCitations (textPage " 3 ") ∧
    openCitationModal REFERENCES
        { modal := some { hidden := true, ariaHidden := some "true" },
          idSpan := some "", textDiv := some "" } "3" =
      { modal := some { hidden := false, ariaHidden := some "false" }
        idSpan := some "3"
        textDiv := some
          "Please see the References page in the brochure for full citation details." } := by
  have hmem : sampleText " 3 " ∈ (textPage " 3 ").elements := by simp [textPage]
  have h := (citation_handler_and_overlay (textPage " 3 ") (sampleText " 3 ") hmem
    (Or.inl rfl)).2.2.2.2.2 (by decide)
  exact ⟨hmem, h.1, h.2 _ _ _⟩

/-! ## Claims on the interaction wiring -/

/-- C11, counterexample: without the animation engine `wireHomeIcon` attaches
nothing on page 2, although the content holds a node with the id `home`. -/
theorem wireHomeIcon_no_engine_counterexample :
    findHomeIconCandidate homeIconPage = some (1, sampleGroup "home") ∧
    wireHomeIcon false 2 homeIconPage = [] := by
  constructor
  · rfl
  · rfl

/-- C11, amended: with the animation engine present, for every page id other
than 1 whose loaded content contains a home graphic (`findHomeIconCandidate`
finds a node), `wireHomeIcon` attaches exactly one click handler, to that
node, whose effect is `goToPage(1)`; for page id 1, and for every page when
the engine is absent, it attaches no handler to any element. -/
theorem wireHomeIcon_handlers (gsap : Bool) (pageId : Int) (svg : Svg) :
    (∀ homeNode, gsap = true → pageId ≠ 1 → findHomeIconCandidate svg = some homeNode →
      wireHomeIcon gsap pageId svg = [{ node := homeNode, targetPage := 1 }] ∧
      ∀ handler ∈ wireHomeIcon gsap pageId svg,
        handler.node = homeNode ∧ ∀ s : State, handler.click s = goToPage s 1 false) ∧
    wireHomeIcon gsap 1 svg = [] ∧
    wireHomeIcon false pageId svg = [] := by
  refine ⟨?_, ?_, ?_⟩
  · intro homeNode hg hp hfound
    have hw : wireHomeIcon gsap pageId svg = [{ node := homeNode, targetPage := 1 }] := by
      unfold wireHomeIcon
      simp [hg, hp, hfound]
    refine ⟨hw, ?_⟩
    intro handler hmem
    rw [hw, List.mem_singleton] at hmem
    subst hmem
    exact ⟨rfl, fun s => rfl⟩
  · unfold wireHomeIcon
    simp
  · unfold wireHomeIcon
    simp

/-- Witness of C11 (amended): on page 2, with the engine, the node with the
id `home` receives the handler. -/
theorem wireHomeIcon_handlers_witness :
    findHomeIconCandidate homeIconPage = some (1, sampleGroup "home") ∧
    wireHomeIcon true 2 homeIconPage =
      [{ node := (1, sampleGroup "home"), targetPage := 1 }] :=
  ⟨rfl, ((wireHomeIcon_handlers true 2 homeIconPage).1 (1, sampleGroup "home") rfl
    (by decide) rfl).1⟩

/-! ## Background rectangles: lemmas -/

theorem rectStep_eq (cx cy : ℚ) (acc : Option (NodeRef × ℚ)) (r : NodeRef) :
    rectStep cx cy acc r =
      if enclosesPoint cx cy r.2 = true then keepSmaller acc r (boxArea r.2) else acc := by
  unfold rectStep enclosesPoint boxArea
  rw [getBBoxSafe_eq]
  cases hb : r.2.getBBox with
  | none => simp
  | some b =>
    simp only [ge_iff_le, decide_eq_true_eq]

theorem le_of_mem_enumFrom (l : List Element) (n : Nat) (x : NodeRef)
    (h : x ∈ l.enumFrom n) : n ≤ x.1 := by
  induction l generalizing n with
  | nil => simp at h
  | cons a rest ih =>
    rw [List.enumFrom_cons, List.mem_cons] at h
    rcases h with h | h
    · rw [h]
    · exact Nat.le_of_succ_le (ih (n + 1) h)

theorem enumFrom_pairwise (l : List Element) (n : Nat) :
    (l.enumFrom n).Pairwise (fun x y => x.1 < y.1) := by
  induction l generalizing n with
  | nil => simp
  | cons a rest ih =>
    rw [List.enumFrom_cons, List.pairwise_cons]
    exact ⟨fun y hy => le_of_mem_enumFrom rest (n + 1) y hy, ih (n + 1)⟩

theorem selectNodes_pairwise (svg : Svg) (tags : List Tag) :
    (svg.selectNodes tags).Pairwise (fun x y => x.1 < y.1) := by
  unfold Svg.selectNodes Svg.nodes
  exact (enumFrom_pairwise svg.elements 0).sublist (List.filter_sublist _)

theorem foldl_rectStep_spec (cx cy : ℚ) (l : List NodeRef) (acc : Option (NodeRef × ℚ))
    (hsorted : l.Pairwise (fun x y => x.1 < y.1))
    (hacc : ∀ p, acc = some p → ∀ x ∈ l, p.1.1 < x.1) :
    (l.foldl (rectStep cx cy) acc = none ↔
      acc = none ∧ ∀ x ∈ l, enclosesPoint cx cy x.2 = false) ∧
    ∀ r a, l.foldl (rectStep cx cy) acc = some (r, a) →
      (acc = some (r, a) ∨ (r ∈ l ∧ enclosesPoint cx cy r.2 = true ∧ a = boxArea r.2)) ∧
      (∀ r0 a0, acc = some (r0, a0) → a ≤ a0 ∧ (a0 = a → r = r0)) ∧
      (∀ x ∈ l, enclosesPoint cx cy x.2 = true →
        a ≤ boxArea x.2 ∧ (boxArea x.2 = a → r.1 ≤ x.1)) := by
  induction l generalizing acc with
  | nil =>
    simp only [List.foldl_nil, List.not_mem_nil, false_implies, implies_true, and_true,
      false_and, or_false, true_and]
    intro r a h
    refine ⟨h, ?_⟩
    intro r0 a0 h0
    rw [h] at h0
    simp only [Option.some.injEq, Prod.mk.injEq] at h0
    exact ⟨le_of_eq h0.2, fun _ => h0.1⟩
  | cons x xs ih =>
    rw [List.pairwise_cons] at hsorted
    obtain ⟨hx, hxs⟩ := hsorted
    rw [List.foldl_cons, rectStep_eq]
    by_cases henc : enclosesPoint cx cy x.2 = true
    · simp only [henc, if_true]
      cases hacc0 : acc with
      | none =>
        have hk : keepSmaller none x (boxArea x.2) = some (x, boxArea x.2) := rfl
        rw [hk]
        obtain ⟨ih1, ih2⟩ := ih (some (x, boxArea x.2)) hxs (by
          intro p hp y hy
          simp only [Option.some.injEq] at hp
          rw [← hp]
          exact hx y hy)
        constructor
        · constructor
          · intro h
            have := ih1.mp h
            simp at this
          · rintro ⟨_, h⟩
            have := h x (List.mem_cons_self x xs)
            rw [henc] at this
            exact Bool.noConfusion this
        · intro r a h
          obtain ⟨h1, h2, h3⟩ := ih2 r a h
          refine ⟨Or.inr ?_, ?_, ?_⟩
          · rcases h1 with h1 | ⟨h1, h1b, h1c⟩
            · simp only [Option.some.injEq, Prod.mk.injEq] at h1
              exact ⟨by rw [← h1.1]; exact List.mem_cons_self x xs,
                by rw [← h1.1]; exact henc, by rw [← h1.1, ← h1.2]⟩
            · exact ⟨List.mem_cons_of_mem x h1, h1b, h1c⟩
          · intro r0 a0 h0
            exact Option.noConfusion h0
          · intro y hy hyenc
            rw [List.mem_cons] at hy
            rcases hy with hy | hy
            · obtain ⟨hle, htie⟩ := h2 x (boxArea x.2) rfl
              rw [hy]
              exact ⟨hle, fun he => by rw [htie he]⟩
            · exact h3 y hy hyenc
      | some p =>
        obtain ⟨r0, a0⟩ := p
        by_cases hlt : boxArea x.2 < a0
        · have hk : keepSmaller (some (r0, a0)) x (boxArea x.2) = some (x, boxArea x.2) := by
            simp [keepSmaller, hlt]
          rw [hk]
          obtain ⟨ih1, ih2⟩ := ih (some (x, boxArea x.2)) hxs (by
            intro p hp y hy
            simp only [Option.some.injEq] at hp
            rw [← hp]
            exact hx y hy)
          constructor
          · constructor
            · intro h
              have := ih1.mp h
              simp at this
            · rintro ⟨h, _⟩
              exact Option.noConfusion h
          · intro r a h
            obtain ⟨h1, h2, h3⟩ := ih2 r a h
            obtain ⟨hle, htie⟩ := h2 x (boxArea x.2) rfl
            refine ⟨Or.inr ?_, ?_, ?_⟩
            · rcases h1 with h1 | ⟨h1, h1b, h1c⟩
              · simp only [Option.some.injEq, Prod.mk.injEq] at h1
                exact ⟨by rw [← h1.1]; exact List.mem_cons_self x xs,
                  by rw [← h1.1]; exact henc, by rw [← h1.1, ← h1.2]⟩
              · exact ⟨List.mem_cons_of_mem x h1, h1b, h1c⟩
            · intro r1 a1 h0
              simp only [Option.some.injEq, Prod.mk.injEq] at h0
              obtain ⟨_, ha⟩ := h0
              subst ha
              constructor
              · exact le_of_lt (lt_of_le_of_lt hle hlt)
              · intro he
                exact absurd (lt_of_le_of_lt hle hlt) (by rw [he]; exact lt_irrefl _)
            · intro y hy hyenc
              rw [List.mem_cons] at hy
              rcases hy with hy | hy
              · rw [hy]
                exact ⟨hle, fun he => by rw [htie he]⟩
              · exact h3 y hy hyenc
        · have hk : keepSmaller (some (r0, a0)) x (boxArea x.2) = some (r0, a0) := by
            simp [keepSmaller, hlt]
          rw [hk]
          have hge : a0 ≤ boxArea x.2 := not_lt.mp hlt
          obtain ⟨ih1, ih2⟩ := ih (some (r0, a0)) hxs (by
            intro p hp y hy
            exact hacc p (by rw [hacc0]; exact hp) y (List.mem_cons_of_mem x hy))
          constructor
          · constructor
            · intro h
              have := ih1.mp h
              simp at this
            · rintro ⟨h, _⟩
              exact Option.noConfusion h
          · intro r a h
            obtain ⟨h1, h2, h3⟩ := ih2 r a h
            obtain ⟨hle, htie⟩ := h2 r0 a0 rfl
            refine ⟨?_, ?_, ?_⟩
            · rcases h1 with h1 | ⟨h1, h1b, h1c⟩
              · exact Or.inl h1
              · exact Or.inr ⟨List.mem_cons_of_mem x h1, h1b, h1c⟩
            · intro r1 a1 h0
              simp only [Option.some.injEq, Prod.mk.injEq] at h0
              obtain ⟨hr, ha⟩ := h0
              subst hr; subst ha
              exact ⟨hle, htie⟩
            · intro y hy hyenc
              rw [List.mem_cons] at hy
              rcases hy with hy | hy
              · rw [hy]
                refine ⟨le_trans hle hge, ?_⟩
                intro he
                have ha0 : a0 = a := le_antisymm (by rw [← he]; exact hge) hle
                rw [htie ha0]
                exact le_of_lt (hacc (r0, a0) hacc0 x (List.mem_cons_self x xs))
              · exact h3 y hy hyenc
    · simp only [henc, if_false, Bool.false_eq_true]
      have henc2 : enclosesPoint cx cy x.2 = false := by simpa using henc
      obtain ⟨ih1, ih2⟩ := ih acc hxs (by
        intro p hp y hy
        exact hacc p hp y (List.mem_cons_of_mem x hy))
      constructor
      · rw [ih1]
        constructor
        · rintro ⟨h, hall⟩
          refine ⟨h, ?_⟩
          intro y hy
          rw [List.mem_cons] at hy
          rcases hy with hy | hy
          · rw [hy]; exact henc2
          · exact hall y hy
        · rintro ⟨h, hall⟩
          exact ⟨h, fun y hy => hall y (List.mem_cons_of_mem x hy)⟩
      · intro r a h
        obtain ⟨h1, h2, h3⟩ := ih2 r a h
        refine ⟨?_, h2, ?_⟩
        · rcases h1 with h1 | ⟨h1, h1b, h1c⟩
          · exact Or.inl h1
          · exact Or.inr ⟨List.mem_cons_of_mem x h1, h1b, h1c⟩
        · intro y hy hyenc
          rw [List.mem_cons] at hy
          rcases hy with hy | hy
          · rw [hy, henc2] at hyenc
            exact Bool.noConfusion hyenc
          · exact h3 y hy hyenc

/-- C13: for every text node with a computable bounding box and every page
(hence every list of rectangles), `findBackgroundRectForText` returns `null`
exactly when no rectangle has bounds that contain the centre point of the
text's box; otherwise it returns a rectangle of the page whose bounds contain
that point and whose area is minimal among all such rectangles, and among
those of minimal area the first in document order. -/
theorem findBackgroundRectForText_smallest_enclosing (svg : Svg) (textNode : Element)
    (box : BBox) (hbox : textNode.getBBox = some box) :
    (findBackgroundRectForText svg textNode = none ↔
      ∀ r ∈ svg.selectNodes [Tag.rect],
        enclosesPoint (box.x + box.width / 2) (box.y + box.height / 2) r.2 = false) ∧
    (∀ best, findBackgroundRectForText svg textNode = some best →
      best ∈ svg.selectNodes [Tag.rect] ∧
      enclosesPoint (box.x + box.width / 2) (box.y + box.height / 2) best.2 = true ∧
      ∀ r ∈ svg.selectNodes [Tag.rect],
        enclosesPoint (box.x + box.width / 2) (box.y + box.height / 2) r.2 = true →
        boxArea best.2 ≤ boxArea r.2 ∧ (boxArea r.2 = boxArea best.2 → best.1 ≤ r.1)) := by
  have hsafe : getBBoxSafe textNode = some box := by rw [getBBoxSafe_eq, hbox]
  obtain ⟨h1, h2⟩ := foldl_rectStep_spec (box.x + box.width / 2) (box.y + box.height / 2)
    (svg.selectNodes [Tag.rect]) none (selectNodes_pairwise svg [Tag.rect])
    (fun p hp => Option.noConfusion hp)
  unfold findBackgroundRectForText
  simp only [hsafe]
  constructor
  · rw [Option.map_eq_none', h1]
    simp
  · intro best hbest
    rw [Option.map_eq_some'] at hbest
    obtain ⟨⟨r, a⟩, hfold, hr⟩ := hbest
    simp only at hr
    subst hr
    obtain ⟨hmem, _, hmin⟩ := h2 r a hfold
    rcases hmem with hmem | ⟨hmem, henc, harea⟩
    · exact Option.noConfusion hmem
    · refine ⟨hmem, henc, ?_⟩
      intro x hx hxenc
      rw [← harea]
      exact hmin x hx hxenc

/-- Witness of C13: the label `Dosing` lies in a panel and in two capsules of
equal area; the first capsule in document order is returned. -/
theorem findBackgroundRectForText_smallest_enclosing_witness :
    findBackgroundRectForText capsulePage capsuleLabel = some (1, sampleRect 90 90 100 40) ∧
    boxArea (sampleRect 90 90 100 40) ≤ boxArea (sampleRect 100 80 40 100) ∧
    (boxArea (sampleRect 100 80 40 100) = boxArea (sampleRect 90 90 100 40) →
      (1 : Nat) ≤ 2) :=
  ⟨by decide!,
    ((findBackgroundRectForText_smallest_enclosing capsulePage capsuleLabel
      { x := 110, y := 100, width := 20, height := 20 } rfl).2
      (1, sampleRect 90 90 100 40) (by decide!)).2.2
      (2, sampleRect 100 80 40 100) (by decide!) (by decide!)⟩

/-! ## Text navigation: lemmas -/

theorem enumFrom_functional (l : List Element) (n i : Nat) (a b : Element)
    (ha : (i, a) ∈ l.enumFrom n) (hb : (i, b) ∈ l.enumFrom n) : a = b := by
  induction l generalizing n with
  | nil => simp at ha
  | cons x rest ih =>
    rw [List.enumFrom_cons, List.mem_cons] at ha hb
    rcases ha with ha | ha
    · rcases hb with hb | hb
      · simp only [Prod.mk.injEq] at ha hb
        rw [ha.2, hb.2]
      · have h1 := le_of_mem_enumFrom rest (n + 1) (i, b) hb
        simp only [Prod.mk.injEq] at ha
        have h2 : i = n := ha.1
        simp only at h1
        omega
    · rcases hb with hb | hb
      · have h1 := le_of_mem_enumFrom rest (n + 1) (i, a) ha
        simp only [Prod.mk.injEq] at hb
        have h2 : i = n := hb.1
        simp only at h1
        omega
      · exact ih (n + 1) ha hb

theorem selectNodes_position_ne (svg : Svg) (x y : NodeRef)
    (hx : x ∈ svg.selectNodes [Tag.rect]) (hy : y ∈ svg.selectNodes [Tag.text]) :
    x.1 ≠ y.1 := by
  unfold Svg.selectNodes Svg.nodes at hx hy
  obtain ⟨hx1, hx2⟩ := List.mem_filter.mp hx
  obtain ⟨hy1, hy2⟩ := List.mem_filter.mp hy
  intro h
  obtain ⟨i, a⟩ := x
  obtain ⟨j, b⟩ := y
  simp only at h
  subst h
  have hab := enumFrom_functional svg.elements 0 i a b hx1 hy1
  subst hab
  simp only [List.mem_singleton, decide_eq_true_eq] at hx2 hy2
  rw [hx2] at hy2
  exact Tag.noConfusion hy2

theorem findBackgroundRectForText_mem (svg : Svg) (textNode : Element) (rect : NodeRef)
    (h : findBackgroundRectForText svg textNode = some rect) :
    rect ∈ svg.selectNodes [Tag.rect] := by
  unfold findBackgroundRectForText at h
  cases hb : getBBoxSafe textNode with
  | none => rw [hb] at h; exact Option.noConfusion h
  | some box =>
    rw [hb] at h
    simp only [Option.map_eq_some'] at h
    obtain ⟨⟨r, a⟩, hfold, hr⟩ := h
    simp only at hr
    subst hr
    obtain ⟨_, h2⟩ := foldl_rectStep_spec (box.x + box.width / 2) (box.y + box.height / 2)
      (svg.selectNodes [Tag.rect]) none (selectNodes_pairwise svg [Tag.rect])
      (fun p hp => Option.noConfusion hp)
    rcases (h2 r a hfold).1 with hm | ⟨hm, _, _⟩
    · exact Option.noConfusion hm
    · exact hm

theorem handlersOn_append (xs ys : List NavHandler) (i : Nat) :
    handlersOn (xs ++ ys) i = handlersOn xs i + handlersOn ys i := by
  unfold handlersOn
  rw [List.filter_append, List.length_append]

theorem attachStep_textsGuarded (svg : Svg) (normLabel : List Char) (targetPage : Int)
    (w : Wiring) (t0 : NodeRef)
    (h : textsGuarded svg w) : textsGuarded svg (attachStep svg normLabel targetPage w t0) := by
  unfold attachStep
  by_cases hassigned : t0.1 ∈ w.assigned
  · simp only [hassigned, if_true]
    exact h
  · simp only [hassigned, if_false]
    split
    · exact h
    · intro t ht
      obtain ⟨hle, hzero⟩ := h t ht
      have hrect : ∀ rect, findBackgroundRectForText svg t0.2 = some rect →
          handlersOn [({ node := rect, targetPage := targetPage } : NavHandler)] t.1 = 0 := by
        intro rect hr
        have hne := selectNodes_position_ne svg rect t
          (findBackgroundRectForText_mem svg t0.2 rect hr) ht
        simp [handlersOn, hne]
      have hrect0 : handlersOn
          (match findBackgroundRectForText svg t0.2 with
            | some rect => [({ node := rect, targetPage := targetPage } : NavHandler)]
            | none => []) t.1 = 0 := by
        cases hr : findBackgroundRectForText svg t0.2 with
        | none => rfl
        | some rect => exact hrect rect hr
      simp only [handlersOn_append, hrect0, Nat.add_zero]
      by_cases heq : t0.1 = t.1
      · have hz : handlersOn w.handlers t.1 = 0 := hzero (by rw [← heq]; exact hassigned)
        have h1 : handlersOn [({ node := t0, targetPage := targetPage } : NavHandler)] t.1
            = 1 := by
          simp [handlersOn, heq]
        rw [hz, h1]
        exact ⟨by omega, fun hnot => absurd (by simp [heq]) hnot⟩
      · have h1 : handlersOn [({ node := t0, targetPage := targetPage } : NavHandler)] t.1
            = 0 := by
          simp [handlersOn, heq]
        rw [h1, Nat.add_zero]
        refine ⟨hle, fun hnot => hzero (fun hin => hnot ?_)⟩
        exact List.mem_append_left _ hin

theorem foldl_attachStep_textsGuarded (svg : Svg) (normLabel : List Char) (targetPage : Int)
    (l : List NodeRef) (w : Wiring)
    (h : textsGuarded svg w) :
    textsGuarded svg (l.foldl (attachStep svg normLabel targetPage) w) := by
  induction l generalizing w with
  | nil => exact h
  | cons t rest ih =>
    rw [List.foldl_cons]
    exact ih _ (attachStep_textsGuarded svg normLabel targetPage w t h)

theorem attachTextNavigation_textsGuarded (svg : Svg) (labelSubstring : String)
    (targetPage : Int) (w : Wiring) (h : textsGuarded svg w) :
    textsGuarded svg (attachTextNavigation svg labelSubstring targetPage w) := by
  unfold attachTextNavigation
  exact foldl_attachStep_textsGuarded svg _ targetPage _ w h

theorem foldl_labels_textsGuarded (svg : Svg) (labels : List (String × Int)) (w : Wiring)
    (h : textsGuarded svg w) :
    textsGuarded svg
      (labels.foldl (fun w entry => attachTextNavigation svg entry.1 entry.2 w) w) := by
  induction labels generalizing w with
  | nil => exact h
  | cons entry rest ih =>
    rw [List.foldl_cons]
    exact ih _ (attachTextNavigation_textsGuarded svg entry.1 entry.2 w h)

/-- The guarded part of the wiring: after `wireHomePageButtons` or
`wireIndicationsLinks` on a freshly loaded page, no text carries more than
one navigation handler. -/
theorem text_carries_at_most_one_handler (svg : Svg) (t : NodeRef)
    (ht : t ∈ svg.selectNodes [Tag.text]) :
    handlersOn (wireHomePageButtons svg).handlers t.1 ≤ 1 ∧
    handlersOn (wireIndicationsLinks svg).handlers t.1 ≤ 1 := by
  have h0 : textsGuarded svg { assigned := [], handlers := [] } := by
    intro x _
    exact ⟨Nat.zero_le 1, fun _ => rfl⟩
  exact ⟨(foldl_labels_textsGuarded svg SECTION_NAV _ h0 t ht).1,
    (foldl_labels_textsGuarded svg INDICATION_LINKS _ h0 t ht).1⟩

/-- C12, the code at the failing input: on a landing page whose labels
`Introduction` and `Indications` share one background rectangle,
`wireHomePageButtons` leaves one handler on each text and two handlers, for
pages 2 and 4, on the rectangle. -/
theorem shared_rectangle_carries_two_handlers :
    (wireHomePageButtons sharedCapsulePage).handlers =
      [{ node := (1, sampleLabel "Introduction" 10 10 80 20), targetPage := 2 },
       { node := (0, sampleRect 0 0 200 100), targetPage := 2 },
       { node := (2, sampleLabel "Indications" 10 50 80 20), targetPage := 4 },
       { node := (0, sampleRect 0 0 200 100), targetPage := 4 }] ∧
    handlersOn (wireHomePageButtons sharedCapsulePage).handlers 0 = 2 ∧
    handlersOn (wireHomePageButtons sharedCapsulePage).handlers 1 = 1 ∧
    handlersOn (wireHomePageButtons sharedCapsulePage).handlers 2 = 1 := by
  decide!

/-! ## Page transitions: completion -/

theorem modifySection_sections (s : State) (k : Int) (g : PageSection → PageSection)
    (j : Int) :
    (modifySection s k g).sections j =
      if j = k then (s.sections k).map g else s.sections j := by
  unfold modifySection
  cases hk : s.sections k with
  | none =>
    by_cases hj : j = k
    · simp [hj, hk]
    · simp [hj]
  | some sec =>
    by_cases hj : j = k
    · simp [setAt, hj]
    · simp [setAt, hj]

/-- The sound part of the transition: from a page `c` to another page `P`,
with the engine and no transition in flight, the completed transition leaves
the section of `P` active and visible, the section of `c` unmarked with its
inline properties cleared, and every other section as it was. -/
theorem transition_to_other_page_completes (s : State) (P c : Int)
    (secP secC : PageSection)
    (hg : s.gsap = true) (hcur : s.currentPageId = some c) (hc0 : c ≠ 0) (hcP : c ≠ P)
    (hsecP : s.sections P = some secP) (hsecC : s.sections c = some secC)
    (hpend : s.pending = []) :
    (completeTransition (goToPage s P false)).currentPageId = some P ∧
    (completeTransition (goToPage s P false)).sections P =
      some { active := true, opacity := some 1, hidden := false, xPercent := 0 } ∧
    (completeTransition (goToPage s P false)).sections c =
      some { active := false, opacity := none, hidden := false, xPercent := 0 } ∧
    ∀ j, j ≠ P → j ≠ c →
      (completeTransition (goToPage s P false)).sections j = s.sections j := by
  have hold : oldSectionOf s = some c := by
    unfold oldSectionOf
    rw [hcur]
    simp [hc0, hsecC]
  have hpath := goToPage_animated_path s P c (by simp [hsecP]) hg hold
  rw [hpath, hpend]
  unfold completeTransition
  simp only [List.nil_append]
  have hPc : P ≠ c := fun h => hcP h.symm
  refine ⟨?_, ?_, ?_, ?_⟩
  · simp [afterBookkeeping]
  · rw [playPage_sections]
    simp [modifySection_sections, afterBookkeeping, hPc, hsecP]
  · rw [playPage_sections]
    simp [modifySection_sections, afterBookkeeping, hcP, hsecC]
  · intro j hjP hjc
    rw [playPage_sections]
    simp [modifySection_sections, afterBookkeeping, hjP, hjc]

/-- C14, the code at the failing input: with the engine, on page 1 of the
built document, the side prev control calls `goToPage(1)`; the transition it
starts has the section of page 1 as both old and target section, and when it
has completed that section carries no `active` marker and has lost its
inline opacity, while the pointer still says page 1 (the same happens for the
top-nav button of the current page, here page 2). -/
theorem same_page_transition_unmarks_page :
    (run (initialState true (some "") true true) [.goTo 1 true]).sections 1 =
      some { active := true, opacity := some 1, hidden := false, xPercent := 0 } ∧
    (run (initialState true (some "") true true) [.goTo 1 true, .sidePrev]).pending =
      [{ oldPage := 1, targetPage := 1, direction := -1 }] ∧
    (run (initialState true (some "") true true)
      [.goTo 1 true, .sidePrev, .transitionDone]).currentPageId = some 1 ∧
    (run (initialState true (some "") true true)
      [.goTo 1 true, .sidePrev, .transitionDone]).pending = [] ∧
    (run (initialState true (some "") true true)
      [.goTo 1 true, .sidePrev, .transitionDone]).sections 1 =
      some { active := false, opacity := none, hidden := false, xPercent := 0 } ∧
    (run (initialState true (some "") true true)
      [.goTo 1 true, .sidePrev, .transitionDone]).sections 2 =
      some { active := false, opacity := none, hidden := false, xPercent := 0 } ∧
    (run (initialState true (some "") true true)
      [.goTo 1 true, .navButton 0, .transitionDone, .navButton 0, .transitionDone]).currentPageId
      = some 2 ∧
    (run (initialState true (some "") true true)
      [.goTo 1 true, .navButton 0, .transitionDone, .navButton 0, .transitionDone]).sections 2 =
      some { active := false, opacity := none, hidden := false, xPercent := 0 } := by
  decide

/-! ## Percentage counters: the text in front of the number -/

/-- C15, the code at the failing input: for the source text `Up to 87%` the
match starts at index 6, the roll-up keeps only what follows the number as
suffix, and every text it writes is the formatted number followed by `%`:
`0%` at the start, `44%` half way, `87%` at completion; the words `Up to `
are gone. -/
theorem roll_drops_text_before_number :
    jsTrim "Up to 87%".toList = "Up to 87%".toList ∧
    matchPercent "Up to 87%".toList = some (6, ['8', '7']) ∧
    (rollOfText "Up to 87%").map (fun r => r.suffix) = some ['%'] ∧
    (rollOfText "Up to 87%").map (fun r => r.finalValue) = some 87 ∧
    (rollOfText "Up to 87%").map (fun r => r.onUpdate 0) = some "0%" ∧
    (rollOfText "Up to 87%").map (fun r => r.onUpdate (87 / 2)) = some "44%" ∧
    (rollOfText "Up to 87%").map (fun r => r.onUpdate r.finalValue) = some "87%" := by
  decide!

end Mixif
